import Mathlib

/-!
Verification development for the ArgoCD graph-construction engine of
`kubectl-graph` (`pkg/graph/argocd.go`).

The engine is embedded shallowly:

* an unstructured cluster resource becomes `Obj` (only the fields the
  engine reads: apiVersion, kind, namespace, name, uid, labels,
  annotation map, ownerReferences, and the `spec.project` field);
* the cluster (discovery catalog plus per-resource list results) becomes
  `Cluster`; a failing per-type list call is a `none` entry;
* the graph sink (get-or-create node, add labeled edge) becomes
  `GraphState`, modelled from the spec since the `Graph` type is an
  external collaborator of this core;
* the resolvers `Application`, `ApplicationSet`, `AppProject` and the
  dispatcher `Unstructured` are translated statement by statement; the
  recursion through the dispatcher is made total with a fuel parameter
  (fuel exhaustion is the distinguished outcome `RErr.outOfFuel`).
-/

/-- Owner reference entry of an object's `metadata.ownerReferences`;
the engine only reads its UID. -/
structure OwnerRef where
  uid : String
deriving DecidableEq, Repr

/-- Unstructured resource object, restricted to the fields the engine
reads.  `specProject` models the `spec.project` field of an Application:
`some s` when `spec` is a map holding a string `project` field `s`,
`none` when `spec` or `spec.project` is missing or not of that shape
(in the Go source the type assertions
`fields["spec"].(map[string]interface{})["project"].(string)` then
abort the resolution). -/
structure Obj where
  apiVersion : String
  kind : String
  ns : String
  name : String
  uid : String
  labels : List (String × String)
  annots : List (String × String)
  ownerReferences : List OwnerRef
  specProject : Option String
deriving DecidableEq, Repr

/-- Modelled from the spec: node identity of the Graph Sink — a node is
a deduplicated identity keyed by (group, version, kind, namespace,
name); the `Graph.Node` implementation is outside this core. -/
structure NodeId where
  apiVersion : String
  kind : String
  ns : String
  name : String
deriving DecidableEq, Repr

/-- Node identity extracted from an object. -/
def nodeIdOf (o : Obj) : NodeId :=
  ⟨o.apiVersion, o.kind, o.ns, o.name⟩

/-- Directed labeled edge of the Graph Sink. -/
structure Edge where
  src : NodeId
  label : String
  dst : NodeId
deriving DecidableEq, Repr

/-- Modelled from the spec: state of the Graph Sink (external
collaborator): the set of created nodes and the set of added edges. -/
structure GraphState where
  nodes : List NodeId
  edges : List Edge
deriving DecidableEq, Repr

/-- Modelled from the spec: `Graph.Node` get-or-create — idempotent,
same identity always yields the same node handle. -/
def GraphState.node (g : GraphState) (o : Obj) : NodeId × GraphState :=
  if nodeIdOf o ∈ g.nodes then (nodeIdOf o, g)
  else (nodeIdOf o, { g with nodes := g.nodes ++ [nodeIdOf o] })

/-- Modelled from the spec: `Graph.Relationship` add-edge — idempotent
for identical (parent, label, child) triples. -/
def GraphState.relationship (g : GraphState) (src : NodeId) (label : String)
    (dst : NodeId) : GraphState :=
  if Edge.mk src label dst ∈ g.edges then g
  else { g with edges := g.edges ++ [Edge.mk src label dst] }

/-- One listable API resource of a discovery group (`APIResource` in the
source): its list-able resource name and its kind. -/
structure APIInfo where
  name : String
  kind : String
deriving DecidableEq, Repr

/-- One discovery group (`APIResourceList` in the source): a
group/version string and its resources. -/
structure APIResourceList where
  groupVersion : String
  resources : List APIInfo
deriving DecidableEq, Repr

/-- The cluster as seen by the engine: the discovery catalog
(`ServerPreferredResources`; `none` models a discovery failure) and the
per-resource-type list results, keyed by (groupVersion, resource name);
a missing or `none` entry models a failing list call. -/
structure Cluster where
  discovery : Option (List APIResourceList)
  lists : List ((String × String) × Option (List Obj))
deriving DecidableEq, Repr

instance {ε α : Type} [DecidableEq ε] [DecidableEq α] :
    DecidableEq (Except ε α) := fun a b =>
  match a, b with
  | .error x, .error y =>
    match decEq x y with
    | .isTrue h => .isTrue (h ▸ rfl)
    | .isFalse h => .isFalse fun hc => h (by injection hc)
  | .error _, .ok _ => .isFalse fun hc => Except.noConfusion hc
  | .ok _, .error _ => .isFalse fun hc => Except.noConfusion hc
  | .ok x, .ok y =>
    match decEq x y with
    | .isTrue h => .isTrue (h ▸ rfl)
    | .isFalse h => .isFalse fun hc => h (by injection hc)

/-- Result of the dynamic list call for one resource type: `none` is a
failing call. -/
def listCall (c : Cluster) (gv nm : String) : Option (List Obj) :=
  match c.lists.lookup (gv, nm) with
  | some r => r
  | none => none

/-- Errors of the engine.  `malformedSpec` models the Go type-assertion
abort on a missing or non-string `spec.project`; `outOfFuel` is the
artificial bound on the recursion through the dispatcher. -/
inductive RErr where
  | discoveryFailure
  | listFailure
  | malformedSpec
  | outOfFuel
deriving DecidableEq, Repr

/-- Outcome of one resolution, mirroring the Go `(*Node, error)` pair:
`ok n` is `(n, nil)`; `fail (some n) e` is `(n, err)` (best-effort
partial node alongside the error); `fail none e` is `(nil, err)`. -/
inductive RRes where
  | ok (n : NodeId)
  | fail (pn : Option NodeId) (e : RErr)
deriving DecidableEq, Repr

/-- `getObjectsForAResource`: one per-type list call.  On failure the
result slot is registered empty and the error flag is set (the Go
function records `results[gvr.String()] = []` and returns the error);
on success the slot holds the listed items. -/
def getObjectsForAResource (c : Cluster) (gv nm : String) : List Obj × Bool :=
  match listCall c gv nm with
  | none => ([], true)
  | some items => (items, false)

/-- List concatenation over a map, used to merge per-type results. -/
def concatMap {α β : Type} (f : α → List β) : List α → List β
  | [] => []
  | x :: xs => f x ++ concatMap f xs

/-- Merge step of `getAllObjects`: for every discovery group and every
non-Event resource in it, the slot registered by
`getObjectsForAResource`, concatenated.  Per-type errors are ignored
(`go g.getObjectsForAResource(...)` discards the return value). -/
def universeOf (c : Cluster) (cat : List APIResourceList) : List Obj :=
  concatMap (fun arl =>
    concatMap (fun a => (getObjectsForAResource c arl.groupVersion a.name).1)
      (arl.resources.filter (fun a => a.kind != "Event"))) cat

/-- `getAllObjects`: harvest the whole object universe.  Only a
discovery failure aborts; per-type list failures contribute empty
slots. -/
def getAllObjects (c : Cluster) : Except RErr (List Obj) :=
  match c.discovery with
  | none => .error .discoveryFailure
  | some cat => .ok (universeOf c cat)

/-- `getChildApplications`: list the single `argoproj.io/v1alpha1`
`applications` resource.  Unlike `getAllObjects`, the error of the
synchronous `getObjectsForAResource` call is checked and propagated. -/
def getChildApplications (c : Cluster) : Except RErr (List Obj) :=
  let r := getObjectsForAResource c "argoproj.io/v1alpha1" "applications"
  if r.2 then .error .listFailure else .ok r.1

/-- The `strings.HasPrefix` test of the Go standard library: `s` starts
with `pre` when the first `len(pre)` characters of `s` equal `pre`. -/
def strStarts (s pre : String) : Bool :=
  s.data.take pre.data.length == pre.data

/-- Tracking signal (2): the `argocd.argoproj.io/tracking-id`
annotation is present and its value starts with `"<appName>:"`. -/
def trackingAnnot (appName : String) (o : Obj) : Bool :=
  match o.annots.lookup "argocd.argoproj.io/tracking-id" with
  | some v => strStarts v (appName ++ ":")
  | none => false

/-- Tracking signal (3): the `app.kubernetes.io/instance` label is
present and equals the application name. -/
def instanceLabel (appName : String) (o : Obj) : Bool :=
  match o.labels.lookup "app.kubernetes.io/instance" with
  | some v => v == appName
  | none => false

/-- Insert into the children set: the `go-set` insert deduplicates. -/
def insertObj (xs : List Obj) (o : Obj) : List Obj :=
  if o ∈ xs then xs else xs ++ [o]

/-- Insert into the namespace set: the `go-set` insert deduplicates. -/
def insertStr (xs : List String) (s : String) : List String :=
  if s ∈ xs then xs else xs ++ [s]

/-- Signal bookkeeping of pass 1 for one universe object (lines 86–103
of the source): a tracking-id match inserts the object into the
children set and, when its namespace is non-empty, the namespace into
the namespace set; then the instance-label check does the same. -/
def trackInsert (appName : String) (o : Obj) (children : List Obj)
    (nss : List String) : List Obj × List String :=
  let acc1 : List Obj × List String :=
    if trackingAnnot appName o then
      (insertObj children o, if o.ns ≠ "" then insertStr nss o.ns else nss)
    else (children, nss)
  if instanceLabel appName o then
    (insertObj acc1.1 o, if o.ns ≠ "" then insertStr acc1.2 o.ns else acc1.2)
  else acc1

/-- Guard of the direct-project branch of pass 1 (lines 77–78 of the
source): an `argoproj.io/v1alpha1` AppProject whose name equals
`spec.project`. -/
def projGuard (projName : String) (o : Obj) : Bool :=
  o.kind == "AppProject" && o.apiVersion == "argoproj.io/v1alpha1"
    && o.name == projName

/-- Pass 1 of `Application` (the loop under the comment `Track the
immediate children, and AppProject of the Application`): walk the
universe once; a matching AppProject is resolved through the dispatcher
and given its edge immediately (aborting on error with the graph as it
stands); the tracking signals accumulate through `trackInsert`. -/
def pass1 (resolve : GraphState → Obj → RRes × GraphState)
    (appName projName : String) (n : NodeId) :
    GraphState → List Obj → List Obj → List String →
      GraphState × List Obj × List String × Option RErr
  | g, [], children, nss => (g, children, nss, none)
  | g, o :: rest, children, nss =>
    match (if projGuard projName o then
             match resolve g o with
             | (.ok cn, g1) => (g1.relationship n o.kind cn, none)
             | (.fail _ e, g1) => (g1, some e)
           else (g, none) : GraphState × Option RErr) with
    | (g1, some e) => (g1, children, nss, some e)
    | (g1, none) =>
      pass1 resolve appName projName n g1 rest
        (trackInsert appName o children nss).1
        (trackInsert appName o children nss).2

/-- Pass 2 of `Application` (the loop under the comment `Add objects
that are created in the same namespace of the immediate children`):
every universe object whose namespace is in the namespace set joins the
children set. -/
def pass2 (nss : List String) : List Obj → List Obj → List Obj
  | [], children => children
  | o :: rest, children =>
    pass2 nss rest (if o.ns ∈ nss then insertObj children o else children)

/-- Final loop of `Application`: resolve every child through the
dispatcher and add an edge labeled with the child's kind; a child
failure aborts with the graph as it stands. -/
def resolveChildren (resolve : GraphState → Obj → RRes × GraphState)
    (n : NodeId) : GraphState → List Obj → GraphState × Option RErr
  | g, [] => (g, none)
  | g, child :: rest =>
    match resolve g child with
    | (.fail _ e, g1) => (g1, some e)
    | (.ok cn, g1) =>
      resolveChildren resolve n (g1.relationship n child.kind cn) rest

/-- The `Application` resolver, parameterized by the dispatcher used
for recursive resolution.  Mirrors the Go source order: create the
node; read `spec.project` (abort on a malformed spec, returning no
node); harvest the universe (returning `nil` alongside the error on
failure); pass 1; pass 2; resolve the children (returning the node
alongside the error on a child failure). -/
def Application (resolve : GraphState → Obj → RRes × GraphState)
    (c : Cluster) (g : GraphState) (app : Obj) : RRes × GraphState :=
  match app.specProject with
  | none => (.fail none .malformedSpec, (g.node app).2)
  | some projName =>
    match getAllObjects c with
    | .error e => (.fail none e, (g.node app).2)
    | .ok objs =>
      match pass1 resolve app.name projName (g.node app).1 (g.node app).2
          objs [] [] with
      | (g1, _, _, some e) => (.fail (some (g.node app).1) e, g1)
      | (g1, children, nss, none) =>
        match resolveChildren resolve (g.node app).1 g1
            (pass2 nss objs children) with
        | (g2, some e) => (.fail (some (g.node app).1) e, g2)
        | (g2, none) => (.ok (g.node app).1, g2)

/-- Inner loop of `ApplicationSet` over one Application's
owner-reference list: every entry whose UID equals the ApplicationSet's
UID resolves the Application and adds an edge; a failure aborts
(the Go code returns `nil, err`). -/
def ownerLoop (resolve : GraphState → Obj → RRes × GraphState)
    (uid : String) (n : NodeId) (o : Obj) :
    GraphState → List OwnerRef → GraphState × Option RErr
  | g, [] => (g, none)
  | g, r :: rs =>
    if r.uid == uid then
      match resolve g o with
      | (.fail _ e, g1) => (g1, some e)
      | (.ok cn, g1) =>
        ownerLoop resolve uid n o (g1.relationship n o.kind cn) rs
    else ownerLoop resolve uid n o g rs

/-- Outer loop of `ApplicationSet` over the harvested Applications. -/
def appsetLoop (resolve : GraphState → Obj → RRes × GraphState)
    (uid : String) (n : NodeId) :
    GraphState → List Obj → GraphState × Option RErr
  | g, [] => (g, none)
  | g, o :: rest =>
    match ownerLoop resolve uid n o g o.ownerReferences with
    | (g1, some e) => (g1, some e)
    | (g1, none) => appsetLoop resolve uid n g1 rest

/-- The `ApplicationSet` resolver: harvest the cluster's Applications
(propagating the list failure, before any node is created); create the
node; add one edge per owner-reference match.  On any error the Go code
returns `nil, err`, so no partial node accompanies a failure. -/
def ApplicationSet (resolve : GraphState → Obj → RRes × GraphState)
    (c : Cluster) (g : GraphState) (appset : Obj) : RRes × GraphState :=
  match getChildApplications c with
  | .error e => (.fail none e, g)
  | .ok objs =>
    match appsetLoop resolve appset.uid (g.node appset).1 (g.node appset).2
        objs with
    | (g1, some e) => (.fail none e, g1)
    | (g1, none) => (.ok (g.node appset).1, g1)

/-- The `AppProject` resolver: a leaf node, no edges, never fails. -/
def AppProject (g : GraphState) (o : Obj) : RRes × GraphState :=
  (.ok (g.node o).1, (g.node o).2)

/-- Modelled from the spec: the dispatcher (`Graph.Unstructured`, the
single recursion point of §4.2, whose generic implementation is outside
this core) routes by kind to the three resolvers of this file — exactly
as `ApplicationV1alpha1Graph.Unstructured` does — and resolves every
other kind to a plain node with no edges.  The fuel parameter bounds
the recursion; exhaustion is the artificial `outOfFuel` failure. -/
def Unstructured : Nat → Cluster → GraphState → Obj → RRes × GraphState
  | 0, _, g, _ => (.fail none .outOfFuel, g)
  | fuel + 1, c, g, o =>
    if o.kind == "ApplicationSet" then ApplicationSet (Unstructured fuel c) c g o
    else if o.kind == "Application" then Application (Unstructured fuel c) c g o
    else if o.kind == "AppProject" then AppProject g o
    else (.ok (g.node o).1, (g.node o).2)

/-! ## Basic lemmas on the graph sink and the harvest pool -/

/-- All objects a resolution can dispatch recursively: the harvested
universe together with the harvested Applications (empty on harvest
failure). -/
def harvestPool (c : Cluster) : List Obj :=
  (match getAllObjects c with | .ok l => l | .error _ => []) ++
  (match getChildApplications c with | .ok l => l | .error _ => [])

/-- Edge sets only ever grow, recorded as a right extension. -/
def ExtendsE (g g' : GraphState) : Prop := ∃ t, g'.edges = g.edges ++ t

/-- One object's tracking signal (2) or (3) fires. -/
def Sig (a : String) (o : Obj) : Prop :=
  trackingAnnot a o = true ∨ instanceLabel a o = true

instance (a : String) (o : Obj) : Decidable (Sig a o) := by
  unfold Sig
  infer_instance

/-- Allowed edge sources of one resolution: the resolved object's own
node, or the node of an object reachable through the harvesters. -/
def SrcOK (c : Cluster) (o : Obj) (s : NodeId) : Prop :=
  s = nodeIdOf o ∨ ∃ u, u ∈ harvestPool c ∧ s = nodeIdOf u

/-- The empty graph sink. -/
def emptyG : GraphState := ⟨[], []⟩

/-! ## Concrete scenarios used as witnesses and counterexamples -/

/-- Convenience constructor for unstructured objects. -/
def mkObj (av k nsv nm u : String) (ls as : List (String × String))
    (ors : List OwnerRef) (sp : Option String) : Obj :=
  ⟨av, k, nsv, nm, u, ls, as, ors, sp⟩

/-- Application `app1` with `spec.project = "p"`. -/
def appC1 : Obj :=
  mkObj "argoproj.io/v1alpha1" "Application" "argocd" "app1" "uA" [] [] []
    (some "p")

/-- Cluster-scoped ConfigMap carrying the tracking-id annotation of
`app1`. -/
def mC1 : Obj :=
  mkObj "v1" "ConfigMap" "" "cm1" "" []
    [("argocd.argoproj.io/tracking-id", "app1:v1/ConfigMap:cm1")] [] none

/-- Cluster-scoped Secret with no tracking metadata at all. -/
def sC1 : Obj := mkObj "v1" "Secret" "" "sec1" "" [] [] [] none

/-- Cluster whose universe is `[mC1, sC1]`. -/
def cluC1 : Cluster :=
  ⟨some [⟨"v1", [⟨"configmaps", "ConfigMap"⟩, ⟨"secrets", "Secret"⟩]⟩],
   [(("v1", "configmaps"), some [mC1]), (("v1", "secrets"), some [sC1])]⟩

/-- Namespaced ConfigMap carrying the tracking-id annotation of `app1`. -/
def mW1 : Obj :=
  mkObj "v1" "ConfigMap" "ns1" "cm1" "" []
    [("argocd.argoproj.io/tracking-id", "app1:v1/ConfigMap:ns1/cm1")] [] none

/-- Secret in the same namespace `ns1`, with no tracking metadata. -/
def sW1 : Obj := mkObj "v1" "Secret" "ns1" "sec1" "" [] [] [] none

/-- Cluster whose universe is `[mW1, sW1]`. -/
def cluW1 : Cluster :=
  ⟨some [⟨"v1", [⟨"configmaps", "ConfigMap"⟩, ⟨"secrets", "Secret"⟩]⟩],
   [(("v1", "configmaps"), some [mW1]), (("v1", "secrets"), some [sW1])]⟩

/-- Graph produced by resolving `appC1` against `cluW1`. -/
def graW1 : GraphState :=
  (Application (Unstructured 2 cluW1) cluW1 emptyG appC1).2

/-- Graph produced by resolving `appC1` against `cluW1` through the
tracking-id scenario of C2 (same cluster, different designated child). -/
def graC2 : GraphState :=
  (Application (Unstructured 2 cluW1) cluW1 emptyG appC1).2

/-- ApplicationSet `set1` with UID `u1`. -/
def setC3 : Obj :=
  mkObj "argoproj.io/v1alpha1" "ApplicationSet" "argocd" "set1" "u1" [] [] []
    none

/-- Application owned by `set1` through an owner reference with UID
`u1`. -/
def ch1C3 : Obj :=
  mkObj "argoproj.io/v1alpha1" "Application" "argocd" "child1" "uc1" [] []
    [⟨"u1"⟩] (some "p")

/-- Application carrying `set1`'s instance label but no owner
reference. -/
def ch2C3 : Obj :=
  mkObj "argoproj.io/v1alpha1" "Application" "argocd" "child2" "uc2"
    [("app.kubernetes.io/instance", "set1")] [] [] (some "p")

/-- Cluster whose applications list is `[ch1C3, ch2C3]` and whose
discovery catalog is empty. -/
def cluC3 : Cluster :=
  ⟨some [], [(("argoproj.io/v1alpha1", "applications"), some [ch1C3, ch2C3])]⟩

/-- Graph produced by resolving `setC3` against `cluC3`. -/
def graC3 : GraphState :=
  (ApplicationSet (Unstructured 3 cluC3) cluC3 emptyG setC3).2

/-- ApplicationSet used with the failing applications list of C4. -/
def setC4 : Obj :=
  mkObj "argoproj.io/v1alpha1" "ApplicationSet" "argocd" "set1" "u1" [] [] []
    none

/-- Cluster whose applications list call fails. -/
def cluC4 : Cluster :=
  ⟨some [], [(("argoproj.io/v1alpha1", "applications"), none)]⟩

/-- Application whose `spec.project` is missing (or not a string). -/
def appC5 : Obj :=
  mkObj "argoproj.io/v1alpha1" "Application" "argocd" "app5" "u5" [] [] [] none

/-- Cluster used for the malformed-spec scenario. -/
def cluC5 : Cluster := ⟨none, []⟩

/-- Application resolved against a failing discovery catalog. -/
def appC6 : Obj :=
  mkObj "argoproj.io/v1alpha1" "Application" "argocd" "app1" "uA" [] [] []
    (some "p")

/-- Cluster whose discovery call fails. -/
def cluC6 : Cluster := ⟨none, []⟩

/-- Tracked child Application with a malformed spec, to make a child
resolution fail. -/
def badC6 : Obj :=
  mkObj "argoproj.io/v1alpha1" "Application" "argocd" "app2" "uB" []
    [("argocd.argoproj.io/tracking-id", "app1:argoproj.io/Application:argocd/app2")]
    [] none

/-- Cluster whose universe holds only `badC6`. -/
def cluC6b : Cluster :=
  ⟨some [⟨"argoproj.io/v1alpha1", [⟨"applications", "Application"⟩]⟩],
   [(("argoproj.io/v1alpha1", "applications"), some [badC6])]⟩

/-- Graph produced by resolving `appC6` against `cluC6b` (the run that
aborts on the child's malformed spec). -/
def graC6b : GraphState :=
  (Application (Unstructured 2 cluC6b) cluC6b emptyG appC6).2

/-- AppProject named `other` (not the `spec.project` of `app1`) carrying
`app1`'s instance label. -/
def projC7 : Obj :=
  mkObj "argoproj.io/v1alpha1" "AppProject" "argocd" "other" "" 
    [("app.kubernetes.io/instance", "app1")] [] [] none

/-- Cluster whose universe holds only `projC7`. -/
def cluC7 : Cluster :=
  ⟨some [⟨"argoproj.io/v1alpha1", [⟨"appprojects", "AppProject"⟩]⟩],
   [(("argoproj.io/v1alpha1", "appprojects"), some [projC7])]⟩

/-- Graph produced by resolving `appC1` against `cluC7`. -/
def graC7 : GraphState :=
  (Application (Unstructured 2 cluC7) cluC7 emptyG appC1).2

/-- AppProject named `p`, matching `appC1.specProject`. -/
def projC7b : Obj :=
  mkObj "argoproj.io/v1alpha1" "AppProject" "argocd" "p" "" [] [] [] none

/-- Cluster whose universe holds only `projC7b`. -/
def cluC7b : Cluster :=
  ⟨some [⟨"argoproj.io/v1alpha1", [⟨"appprojects", "AppProject"⟩]⟩],
   [(("argoproj.io/v1alpha1", "appprojects"), some [projC7b])]⟩

/-- Graph produced by resolving `appC1` against `cluC7b`. -/
def graC7b : GraphState :=
  (Application (Unstructured 2 cluC7b) cluC7b emptyG appC1).2

/-- A ConfigMap listed twice by its resource type. -/
def xC8 : Obj := mkObj "v1" "ConfigMap" "ns1" "cm8" "" [] [] [] none

/-- A Secret listed once. -/
def yC8 : Obj := mkObj "v1" "Secret" "ns1" "sec8" "" [] [] [] none

/-- An Event, excluded from harvesting by kind. -/
def zC8 : Obj := mkObj "v1" "Event" "ns1" "ev8" "" [] [] [] none

/-- Discovery catalog with ConfigMap, Secret and Event resources. -/
def catC8 : List APIResourceList :=
  [⟨"v1", [⟨"configmaps", "ConfigMap"⟩, ⟨"secrets", "Secret"⟩,
    ⟨"events", "Event"⟩]⟩]

/-- Cluster for the concatenation scenario: the ConfigMap slot lists
`xC8` twice. -/
def cluC8 : Cluster :=
  ⟨some catC8,
   [(("v1", "configmaps"), some [xC8, xC8]), (("v1", "secrets"), some [yC8]),
    (("v1", "events"), some [zC8])]⟩

/-- Trivial cluster for the pass-1 bookkeeping scenario. -/
def cluC10 : Cluster := ⟨none, []⟩

/-- Result of pass 1 over the universe `[mW1]` for application `app1`,
project `p`. -/
def p1C10 : GraphState × List Obj × List String × Option RErr :=
  pass1 (Unstructured 1 cluC10) "app1" "p" (nodeIdOf appC1) emptyG [mW1] [] []

theorem node_fst (g : GraphState) (o : Obj) : (g.node o).1 = nodeIdOf o := by
  unfold GraphState.node
  split <;> rfl

theorem node_edges (g : GraphState) (o : Obj) : ((g.node o).2).edges = g.edges := by
  unfold GraphState.node
  split <;> rfl

theorem node_nodes_mem (g : GraphState) (o : Obj) :
    nodeIdOf o ∈ ((g.node o).2).nodes := by
  unfold GraphState.node
  split
  · simpa using ‹nodeIdOf o ∈ g.nodes›
  · simp

theorem extendsE_refl (g : GraphState) : ExtendsE g g := ⟨[], by simp⟩

theorem extendsE_trans {g1 g2 g3 : GraphState} (h1 : ExtendsE g1 g2)
    (h2 : ExtendsE g2 g3) : ExtendsE g1 g3 := by
  obtain ⟨t1, h1⟩ := h1
  obtain ⟨t2, h2⟩ := h2
  exact ⟨t1 ++ t2, by simp [h2, h1]⟩

theorem extendsE_mem {g g' : GraphState} (h : ExtendsE g g') {e : Edge}
    (he : e ∈ g.edges) : e ∈ g'.edges := by
  obtain ⟨t, ht⟩ := h
  simp [ht, he]

theorem relationship_extendsE (g : GraphState) (s : NodeId) (l : String)
    (d : NodeId) : ExtendsE g (g.relationship s l d) := by
  unfold GraphState.relationship
  split
  · exact extendsE_refl g
  · exact ⟨[⟨s, l, d⟩], rfl⟩

theorem relationship_mem (g : GraphState) (s : NodeId) (l : String) (d : NodeId) :
    Edge.mk s l d ∈ (g.relationship s l d).edges := by
  unfold GraphState.relationship
  split
  · assumption
  · simp

theorem relationship_edges_sub {g : GraphState} {s : NodeId} {l : String}
    {d : NodeId} {e : Edge} (he : e ∈ (g.relationship s l d).edges) :
    e ∈ g.edges ∨ e = ⟨s, l, d⟩ := by
  unfold GraphState.relationship at he
  split at he
  · exact .inl he
  · rcases List.mem_append.1 he with h | h
    · exact .inl h
    · simp at h
      exact .inr h

theorem node_extendsE (g : GraphState) (o : Obj) : ExtendsE g ((g.node o).2) :=
  ⟨[], by simp [node_edges]⟩

/-! ## Membership lemmas for the set inserts and signal bookkeeping -/

theorem insertObj_mem {xs : List Obj} {o x : Obj} :
    x ∈ insertObj xs o ↔ x ∈ xs ∨ x = o := by
  unfold insertObj
  split
  · constructor
    · exact .inl
    · rintro (h | rfl)
      · exact h
      · assumption
  · simp

theorem insertStr_mem {xs : List String} {s x : String} :
    x ∈ insertStr xs s ↔ x ∈ xs ∨ x = s := by
  unfold insertStr
  split
  · constructor
    · exact .inl
    · rintro (h | rfl)
      · exact h
      · assumption
  · simp

theorem trackInsert_fst_mem (a : String) (o : Obj) (ch : List Obj)
    (nss : List String) (x : Obj) :
    x ∈ (trackInsert a o ch nss).1 ↔ x ∈ ch ∨ (x = o ∧ Sig a o) := by
  unfold trackInsert Sig
  rcases h1 : trackingAnnot a o <;> rcases h2 : instanceLabel a o <;>
    simp [h1, h2, insertObj_mem]

theorem trackInsert_snd_mem (a : String) (o : Obj) (ch : List Obj)
    (nss : List String) (s : String) :
    s ∈ (trackInsert a o ch nss).2 ↔
      s ∈ nss ∨ (s = o.ns ∧ Sig a o ∧ s ≠ "") := by
  unfold trackInsert Sig
  rcases h1 : trackingAnnot a o <;> rcases h2 : instanceLabel a o <;>
    rcases h3 : decide (o.ns ≠ "") <;>
    simp_all [insertStr_mem] <;>
    first
    | tauto
    | (constructor
       · rintro (h | rfl)
         · tauto
         · tauto
       · rintro (h | ⟨rfl, -⟩)
         · tauto
         · tauto)

theorem pass2_mem (nss : List String) (objs : List Obj) (ch : List Obj) (x : Obj) :
    x ∈ pass2 nss objs ch ↔ x ∈ ch ∨ (x ∈ objs ∧ x.ns ∈ nss) := by
  induction objs generalizing ch with
  | nil => simp [pass2]
  | cons o rest ih =>
    rw [pass2, ih]
    split
    · rw [insertObj_mem]
      constructor
      · rintro ((h | rfl) | h)
        · exact .inl h
        · exact .inr ⟨by simp, by assumption⟩
        · exact .inr ⟨by simp [h.1], h.2⟩
      · rintro (h | ⟨hm, hns⟩)
        · exact .inl (.inl h)
        · rcases List.mem_cons.1 hm with rfl | hm
          · exact .inl (.inr rfl)
          · exact .inr ⟨hm, hns⟩
    · constructor
      · rintro (h | h)
        · exact .inl h
        · exact .inr ⟨by simp [h.1], h.2⟩
      · rintro (h | ⟨hm, hns⟩)
        · exact .inl h
        · rcases List.mem_cons.1 hm with rfl | hm
          · exact absurd hns (by assumption)
          · exact .inr ⟨hm, hns⟩

/-! ## Rewrite lemmas for one pass-1 step -/

theorem pass1_cons_no_guard (resolve : GraphState → Obj → RRes × GraphState)
    (a p : String) (n : NodeId) (g : GraphState) (o : Obj) (rest : List Obj)
    (ch : List Obj) (nss : List String) (hg : projGuard p o = false) :
    pass1 resolve a p n g (o :: rest) ch nss =
      pass1 resolve a p n g rest (trackInsert a o ch nss).1
        (trackInsert a o ch nss).2 := by
  rw [pass1]
  simp [hg]

theorem pass1_cons_guard_ok (resolve : GraphState → Obj → RRes × GraphState)
    (a p : String) (n : NodeId) (g g1 : GraphState) (o : Obj) (rest : List Obj)
    (ch : List Obj) (nss : List String) (cn : NodeId)
    (hg : projGuard p o = true) (hr : resolve g o = (.ok cn, g1)) :
    pass1 resolve a p n g (o :: rest) ch nss =
      pass1 resolve a p n (g1.relationship n o.kind cn) rest
        (trackInsert a o ch nss).1 (trackInsert a o ch nss).2 := by
  rw [pass1]
  simp [hg, hr]

theorem pass1_cons_guard_fail (resolve : GraphState → Obj → RRes × GraphState)
    (a p : String) (n : NodeId) (g g1 : GraphState) (o : Obj) (rest : List Obj)
    (ch : List Obj) (nss : List String) (pn : Option NodeId) (e : RErr)
    (hg : projGuard p o = true) (hr : resolve g o = (.fail pn e, g1)) :
    pass1 resolve a p n g (o :: rest) ch nss = (g1, ch, nss, some e) := by
  rw [pass1]
  simp [hg, hr]

/-! ## Pass-1 invariants -/

theorem pass1_ext (resolve : GraphState → Obj → RRes × GraphState)
    (Hext : ∀ g o, ExtendsE g (resolve g o).2) (a p : String) (n : NodeId)
    (objs : List Obj) :
    ∀ (g : GraphState) (ch : List Obj) (nss : List String),
    ExtendsE g (pass1 resolve a p n g objs ch nss).1 := by
  induction objs with
  | nil =>
    intro g ch nss
    simp only [pass1]
    exact extendsE_refl g
  | cons o rest ih =>
    intro g ch nss
    rcases hg : projGuard p o with _ | _
    · rw [pass1_cons_no_guard resolve a p n g o rest ch nss hg]
      exact ih g _ _
    · rcases hr : resolve g o with ⟨res, g1⟩
      have hx : ExtendsE g g1 := by
        have := Hext g o
        rwa [hr] at this
      rcases res with cn | ⟨pn, e⟩
      · rw [pass1_cons_guard_ok resolve a p n g g1 o rest ch nss cn hg hr]
        exact extendsE_trans hx
          (extendsE_trans (relationship_extendsE g1 n o.kind cn) (ih _ _ _))
      · rw [pass1_cons_guard_fail resolve a p n g g1 o rest ch nss pn e hg hr]
        exact hx

theorem pass1_none_mem (resolve : GraphState → Obj → RRes × GraphState)
    (a p : String) (n : NodeId) (objs : List Obj) :
    ∀ (g : GraphState) (ch : List Obj) (nss : List String)
      (g' : GraphState) (ch' : List Obj) (nss' : List String),
    pass1 resolve a p n g objs ch nss = (g', ch', nss', none) →
    (∀ x : Obj, x ∈ ch' ↔ x ∈ ch ∨ (x ∈ objs ∧ Sig a x)) ∧
    (∀ s : String, s ∈ nss' ↔
      s ∈ nss ∨ ∃ x, x ∈ objs ∧ Sig a x ∧ x.ns = s ∧ s ≠ "") := by
  induction objs with
  | nil =>
    intro g ch nss g' ch' nss' h
    simp only [pass1] at h
    injection h with h1 h2
    injection h2 with h2 h3
    injection h3 with h3 h4
    subst h1
    subst h2
    subst h3
    constructor
    · intro x
      simp
    · intro s
      simp
  | cons o rest ih =>
    intro g ch nss g' ch' nss' h
    have step : ∀ (gm : GraphState),
        pass1 resolve a p n gm rest (trackInsert a o ch nss).1
            (trackInsert a o ch nss).2 = (g', ch', nss', none) →
        (∀ x : Obj, x ∈ ch' ↔ x ∈ ch ∨ (x ∈ o :: rest ∧ Sig a x)) ∧
        (∀ s : String, s ∈ nss' ↔
          s ∈ nss ∨ ∃ x, x ∈ o :: rest ∧ Sig a x ∧ x.ns = s ∧ s ≠ "") := by
      intro gm hm
      obtain ⟨hc, hn⟩ := ih gm _ _ _ _ _ hm
      constructor
      · intro x
        rw [hc x, trackInsert_fst_mem]
        constructor
        · rintro ((hx | ⟨rfl, hs⟩) | ⟨hx, hs⟩)
          · exact .inl hx
          · exact .inr ⟨by simp, hs⟩
          · exact .inr ⟨List.mem_cons_of_mem _ hx, hs⟩
        · rintro (hx | ⟨hx, hs⟩)
          · exact .inl (.inl hx)
          · rcases List.mem_cons.1 hx with rfl | hx
            · exact .inl (.inr ⟨rfl, hs⟩)
            · exact .inr ⟨hx, hs⟩
      · intro s
        rw [hn s, trackInsert_snd_mem]
        constructor
        · rintro ((hs | ⟨rfl, hsig, hne⟩) | ⟨x, hx, hsig, hxs, hne⟩)
          · exact .inl hs
          · exact .inr ⟨o, List.mem_cons_self o rest, hsig, rfl, hne⟩
          · exact .inr ⟨x, List.mem_cons_of_mem o hx, hsig, hxs, hne⟩
        · rintro (hs | ⟨x, hx, hsig, rfl, hne⟩)
          · exact .inl (.inl hs)
          · rcases List.mem_cons.1 hx with rfl | hx
            · exact .inl (.inr ⟨rfl, hsig, hne⟩)
            · exact .inr ⟨x, hx, hsig, rfl, hne⟩
    rcases hg : projGuard p o with _ | _
    · rw [pass1_cons_no_guard resolve a p n g o rest ch nss hg] at h
      exact step g h
    · rcases hr : resolve g o with ⟨res, g1⟩
      rcases res with cn | ⟨pn, e⟩
      · rw [pass1_cons_guard_ok resolve a p n g g1 o rest ch nss cn hg hr] at h
        exact step _ h
      · rw [pass1_cons_guard_fail resolve a p n g g1 o rest ch nss pn e hg hr] at h
        injection h with h1 h2
        injection h2 with h2 h3
        injection h3 with h3 h4
        cases h4

theorem pass1_project_edge (resolve : GraphState → Obj → RRes × GraphState)
    (Hext : ∀ g o, ExtendsE g (resolve g o).2)
    (Hok : ∀ g o cn g', resolve g o = (.ok cn, g') → cn = nodeIdOf o)
    (a p : String) (n : NodeId) (objs : List Obj) :
    ∀ (g : GraphState) (ch : List Obj) (nss : List String)
      (g' : GraphState) (ch' : List Obj) (nss' : List String),
    pass1 resolve a p n g objs ch nss = (g', ch', nss', none) →
    ∀ x, x ∈ objs → projGuard p x = true →
    Edge.mk n x.kind (nodeIdOf x) ∈ g'.edges := by
  induction objs with
  | nil =>
    intro g ch nss g' ch' nss' h x hx
    cases hx
  | cons o rest ih =>
    intro g ch nss g' ch' nss' h x hx hguard
    rcases hg : projGuard p o with _ | _
    · rw [pass1_cons_no_guard resolve a p n g o rest ch nss hg] at h
      rcases List.mem_cons.1 hx with rfl | hx
      · rw [hguard] at hg
        cases hg
      · exact ih g _ _ _ _ _ h x hx hguard
    · rcases hr : resolve g o with ⟨res, g1⟩
      rcases res with cn | ⟨pn, e⟩
      · rw [pass1_cons_guard_ok resolve a p n g g1 o rest ch nss cn hg hr] at h
        have hext : ExtendsE ((g1.relationship n o.kind cn)) g' := by
          have := pass1_ext resolve Hext a p n rest
            (g1.relationship n o.kind cn)
            (trackInsert a o ch nss).1 (trackInsert a o ch nss).2
          rwa [h] at this
        rcases List.mem_cons.1 hx with rfl | hx
        · have hcn : cn = nodeIdOf x := Hok g x cn g1 hr
          subst hcn
          exact extendsE_mem hext (relationship_mem g1 n x.kind (nodeIdOf x))
        · exact ih _ _ _ _ _ _ h x hx hguard
      · rw [pass1_cons_guard_fail resolve a p n g g1 o rest ch nss pn e hg hr] at h
        injection h with h1 h2
        injection h2 with h2 h3
        injection h3 with h3 h4
        cases h4

theorem pass1_newSrc (resolve : GraphState → Obj → RRes × GraphState)
    (S : NodeId → Prop) (a p : String) (n : NodeId) (objs : List Obj)
    (HR : ∀ g o, o ∈ objs → ∀ e, e ∈ (resolve g o).2.edges →
      e ∈ g.edges ∨ S e.src)
    (HS : S n) :
    ∀ (g : GraphState) (ch : List Obj) (nss : List String),
    ∀ e, e ∈ (pass1 resolve a p n g objs ch nss).1.edges →
      e ∈ g.edges ∨ S e.src := by
  induction objs with
  | nil =>
    intro g ch nss e he
    simp only [pass1] at he
    exact .inl he
  | cons o rest ih =>
    have HRrest : ∀ g o', o' ∈ rest → ∀ e, e ∈ (resolve g o').2.edges →
        e ∈ g.edges ∨ S e.src :=
      fun g o' ho' => HR g o' (List.mem_cons_of_mem o ho')
    intro g ch nss e he
    rcases hg : projGuard p o with _ | _
    · rw [pass1_cons_no_guard resolve a p n g o rest ch nss hg] at he
      exact ih HRrest g _ _ e he
    · rcases hr : resolve g o with ⟨res, g1⟩
      have hr1 : ∀ e, e ∈ g1.edges → e ∈ g.edges ∨ S e.src := by
        intro e he1
        have := HR g o (List.mem_cons_self o rest) e
        rw [hr] at this
        exact this he1
      rcases res with cn | ⟨pn, er⟩
      · rw [pass1_cons_guard_ok resolve a p n g g1 o rest ch nss cn hg hr] at he
        rcases ih HRrest _ _ _ e he with h1 | h1
        · rcases relationship_edges_sub h1 with h2 | rfl
          · exact hr1 e h2
          · exact .inr HS
        · exact .inr h1
      · rw [pass1_cons_guard_fail resolve a p n g g1 o rest ch nss pn er hg hr] at he
        exact hr1 e he

/-! ## Final child-resolution loop -/

theorem resolveChildren_ext (resolve : GraphState → Obj → RRes × GraphState)
    (Hext : ∀ g o, ExtendsE g (resolve g o).2) (n : NodeId) (l : List Obj) :
    ∀ g : GraphState, ExtendsE g (resolveChildren resolve n g l).1 := by
  induction l with
  | nil =>
    intro g
    simp only [resolveChildren]
    exact extendsE_refl g
  | cons child rest ih =>
    intro g
    rw [resolveChildren]
    rcases hr : resolve g child with ⟨res, g1⟩
    have hx : ExtendsE g g1 := by
      have := Hext g child
      rwa [hr] at this
    rcases res with cn | ⟨pn, e⟩
    · exact extendsE_trans hx
        (extendsE_trans (relationship_extendsE g1 n child.kind cn) (ih _))
    · exact hx

theorem resolveChildren_cons_ok (resolve : GraphState → Obj → RRes × GraphState)
    (n : NodeId) (g g1 : GraphState) (child : Obj) (rest : List Obj)
    (cn : NodeId) (hr : resolve g child = (.ok cn, g1)) :
    resolveChildren resolve n g (child :: rest) =
      resolveChildren resolve n (g1.relationship n child.kind cn) rest := by
  rw [resolveChildren]
  simp [hr]

theorem resolveChildren_cons_fail (resolve : GraphState → Obj → RRes × GraphState)
    (n : NodeId) (g g1 : GraphState) (child : Obj) (rest : List Obj)
    (pn : Option NodeId) (e : RErr) (hr : resolve g child = (.fail pn e, g1)) :
    resolveChildren resolve n g (child :: rest) = (g1, some e) := by
  rw [resolveChildren]
  simp [hr]

theorem resolveChildren_ok_edges (resolve : GraphState → Obj → RRes × GraphState)
    (Hext : ∀ g o, ExtendsE g (resolve g o).2)
    (Hok : ∀ g o cn g', resolve g o = (.ok cn, g') → cn = nodeIdOf o)
    (n : NodeId) (l : List Obj) :
    ∀ (g g' : GraphState), resolveChildren resolve n g l = (g', none) →
    ∀ x, x ∈ l → Edge.mk n x.kind (nodeIdOf x) ∈ g'.edges := by
  induction l with
  | nil =>
    intro g g' h x hx
    cases hx
  | cons child rest ih =>
    intro g g' h x hx
    rcases hr : resolve g child with ⟨res, g1⟩
    rcases res with cn | ⟨pn, e⟩
    · rw [resolveChildren_cons_ok resolve n g g1 child rest cn hr] at h
      have hcn : cn = nodeIdOf child := Hok g child cn g1 hr
      subst hcn
      rcases List.mem_cons.1 hx with rfl | hx
      · have hext : ExtendsE (g1.relationship n x.kind (nodeIdOf x)) g' := by
          have := resolveChildren_ext resolve Hext n rest
            (g1.relationship n x.kind (nodeIdOf x))
          rwa [h] at this
        exact extendsE_mem hext (relationship_mem g1 n x.kind (nodeIdOf x))
      · exact ih _ _ h x hx
    · rw [resolveChildren_cons_fail resolve n g g1 child rest pn e hr] at h
      injection h with h1 h2
      cases h2

theorem resolveChildren_newSrc (resolve : GraphState → Obj → RRes × GraphState)
    (S : NodeId → Prop) (n : NodeId) (l : List Obj)
    (HR : ∀ g o, o ∈ l → ∀ e, e ∈ (resolve g o).2.edges →
      e ∈ g.edges ∨ S e.src)
    (HS : S n) :
    ∀ g : GraphState, ∀ e, e ∈ (resolveChildren resolve n g l).1.edges →
      e ∈ g.edges ∨ S e.src := by
  induction l with
  | nil =>
    intro g e he
    simp only [resolveChildren] at he
    exact .inl he
  | cons child rest ih =>
    have HRrest : ∀ g o', o' ∈ rest → ∀ e, e ∈ (resolve g o').2.edges →
        e ∈ g.edges ∨ S e.src :=
      fun g o' ho' => HR g o' (List.mem_cons_of_mem child ho')
    intro g e he
    rw [resolveChildren] at he
    rcases hr : resolve g child with ⟨res, g1⟩
    rw [hr] at he
    have hr1 : ∀ e, e ∈ g1.edges → e ∈ g.edges ∨ S e.src := by
      intro e he1
      have := HR g child (List.mem_cons_self child rest) e
      rw [hr] at this
      exact this he1
    rcases res with cn | ⟨pn, er⟩
    · rcases ih HRrest _ e he with h1 | h1
      · rcases relationship_edges_sub h1 with h2 | rfl
        · exact hr1 e h2
        · exact .inr HS
      · exact .inr h1
    · exact hr1 e he

/-! ## ApplicationSet loops -/

theorem ownerLoop_cons_skip (resolve : GraphState → Obj → RRes × GraphState)
    (uid : String) (n : NodeId) (o : Obj) (g : GraphState) (r : OwnerRef)
    (rs : List OwnerRef) (hu : (r.uid == uid) = false) :
    ownerLoop resolve uid n o g (r :: rs) = ownerLoop resolve uid n o g rs := by
  rw [ownerLoop]
  simp [hu]

theorem ownerLoop_cons_ok (resolve : GraphState → Obj → RRes × GraphState)
    (uid : String) (n : NodeId) (o : Obj) (g g1 : GraphState) (r : OwnerRef)
    (rs : List OwnerRef) (cn : NodeId) (hu : (r.uid == uid) = true)
    (hr : resolve g o = (.ok cn, g1)) :
    ownerLoop resolve uid n o g (r :: rs) =
      ownerLoop resolve uid n o (g1.relationship n o.kind cn) rs := by
  rw [ownerLoop]
  simp [hu, hr]

theorem ownerLoop_cons_fail (resolve : GraphState → Obj → RRes × GraphState)
    (uid : String) (n : NodeId) (o : Obj) (g g1 : GraphState) (r : OwnerRef)
    (rs : List OwnerRef) (pn : Option NodeId) (e : RErr)
    (hu : (r.uid == uid) = true) (hr : resolve g o = (.fail pn e, g1)) :
    ownerLoop resolve uid n o g (r :: rs) = (g1, some e) := by
  rw [ownerLoop]
  simp [hu, hr]

theorem ownerLoop_ext (resolve : GraphState → Obj → RRes × GraphState)
    (Hext : ∀ g o, ExtendsE g (resolve g o).2) (uid : String) (n : NodeId)
    (o : Obj) (refs : List OwnerRef) :
    ∀ g : GraphState, ExtendsE g (ownerLoop resolve uid n o g refs).1 := by
  induction refs with
  | nil =>
    intro g
    simp only [ownerLoop]
    exact extendsE_refl g
  | cons r rs ih =>
    intro g
    rcases hu : r.uid == uid with _ | _
    · rw [ownerLoop_cons_skip resolve uid n o g r rs hu]
      exact ih g
    · rcases hr : resolve g o with ⟨res, g1⟩
      have hx : ExtendsE g g1 := by
        have := Hext g o
        rwa [hr] at this
      rcases res with cn | ⟨pn, e⟩
      · rw [ownerLoop_cons_ok resolve uid n o g g1 r rs cn hu hr]
        exact extendsE_trans hx
          (extendsE_trans (relationship_extendsE g1 n o.kind cn) (ih _))
      · rw [ownerLoop_cons_fail resolve uid n o g g1 r rs pn e hu hr]
        exact hx

theorem appsetLoop_cons_ok (resolve : GraphState → Obj → RRes × GraphState)
    (uid : String) (n : NodeId) (g g1 : GraphState) (o : Obj) (rest : List Obj)
    (h : ownerLoop resolve uid n o g o.ownerReferences = (g1, none)) :
    appsetLoop resolve uid n g (o :: rest) = appsetLoop resolve uid n g1 rest := by
  rw [appsetLoop]
  simp [h]

theorem appsetLoop_cons_fail (resolve : GraphState → Obj → RRes × GraphState)
    (uid : String) (n : NodeId) (g g1 : GraphState) (o : Obj) (rest : List Obj)
    (e : RErr) (h : ownerLoop resolve uid n o g o.ownerReferences = (g1, some e)) :
    appsetLoop resolve uid n g (o :: rest) = (g1, some e) := by
  rw [appsetLoop]
  simp [h]

theorem appsetLoop_ext (resolve : GraphState → Obj → RRes × GraphState)
    (Hext : ∀ g o, ExtendsE g (resolve g o).2) (uid : String) (n : NodeId)
    (objs : List Obj) :
    ∀ g : GraphState, ExtendsE g (appsetLoop resolve uid n g objs).1 := by
  induction objs with
  | nil =>
    intro g
    simp only [appsetLoop]
    exact extendsE_refl g
  | cons o rest ih =>
    intro g
    rcases ho : ownerLoop resolve uid n o g o.ownerReferences with ⟨g1, e?⟩
    have hx : ExtendsE g g1 := by
      have := ownerLoop_ext resolve Hext uid n o o.ownerReferences g
      rwa [ho] at this
    rcases e? with _ | e
    · rw [appsetLoop_cons_ok resolve uid n g g1 o rest ho]
      exact extendsE_trans hx (ih g1)
    · rw [appsetLoop_cons_fail resolve uid n g g1 o rest e ho]
      exact hx

theorem ownerLoop_ok_edges (resolve : GraphState → Obj → RRes × GraphState)
    (Hext : ∀ g o, ExtendsE g (resolve g o).2)
    (Hok : ∀ g o cn g', resolve g o = (.ok cn, g') → cn = nodeIdOf o)
    (uid : String) (n : NodeId) (o : Obj) (refs : List OwnerRef) :
    ∀ (g g' : GraphState) (e? : Option RErr),
    ownerLoop resolve uid n o g refs = (g', e?) →
    (∃ r, r ∈ refs ∧ r.uid = uid) → e? = none →
    Edge.mk n o.kind (nodeIdOf o) ∈ g'.edges := by
  induction refs with
  | nil =>
    intro g g' e? h hr _
    rcases hr with ⟨r, hr, -⟩
    cases hr
  | cons r rs ih =>
    intro g g' e? h hmatch hnone
    subst hnone
    rcases hu : r.uid == uid with _ | _
    · rw [ownerLoop_cons_skip resolve uid n o g r rs hu] at h
      rcases hmatch with ⟨r', hr', hru⟩
      rcases List.mem_cons.1 hr' with rfl | hr'
      · rw [hru] at hu
        simp at hu
      · exact ih g g' none h ⟨r', hr', hru⟩ rfl
    · rcases hres : resolve g o with ⟨res, g1⟩
      rcases res with cn | ⟨pn, e⟩
      · rw [ownerLoop_cons_ok resolve uid n o g g1 r rs cn hu hres] at h
        have hcn : cn = nodeIdOf o := Hok g o cn g1 hres
        subst hcn
        have hext : ExtendsE (g1.relationship n o.kind (nodeIdOf o)) g' := by
          have := ownerLoop_ext resolve Hext uid n o rs
            (g1.relationship n o.kind (nodeIdOf o))
          rwa [h] at this
        exact extendsE_mem hext (relationship_mem g1 n o.kind (nodeIdOf o))
      · rw [ownerLoop_cons_fail resolve uid n o g g1 r rs pn e hu hres] at h
        injection h with h1 h2
        cases h2

theorem appsetLoop_ok_edges (resolve : GraphState → Obj → RRes × GraphState)
    (Hext : ∀ g o, ExtendsE g (resolve g o).2)
    (Hok : ∀ g o cn g', resolve g o = (.ok cn, g') → cn = nodeIdOf o)
    (uid : String) (n : NodeId) (objs : List Obj) :
    ∀ (g g' : GraphState), appsetLoop resolve uid n g objs = (g', none) →
    ∀ o, o ∈ objs → (∃ r, r ∈ o.ownerReferences ∧ r.uid = uid) →
    Edge.mk n o.kind (nodeIdOf o) ∈ g'.edges := by
  induction objs with
  | nil =>
    intro g g' h o ho
    cases ho
  | cons o1 rest ih =>
    intro g g' h o ho hmatch
    rcases ho1 : ownerLoop resolve uid n o1 g o1.ownerReferences with ⟨g1, e?⟩
    rcases e? with _ | e
    · rw [appsetLoop_cons_ok resolve uid n g g1 o1 rest ho1] at h
      rcases List.mem_cons.1 ho with rfl | ho
      · have hmem := ownerLoop_ok_edges resolve Hext Hok uid n o
          o.ownerReferences g g1 none ho1 hmatch rfl
        have hext : ExtendsE g1 g' := by
          have := appsetLoop_ext resolve Hext uid n rest g1
          rwa [h] at this
        exact extendsE_mem hext hmem
      · exact ih g1 g' h o ho hmatch
    · rw [appsetLoop_cons_fail resolve uid n g g1 o1 rest e ho1] at h
      injection h with h1 h2
      cases h2

theorem ownerLoop_from_n (resolve : GraphState → Obj → RRes × GraphState)
    (Hok : ∀ g o cn g', resolve g o = (.ok cn, g') → cn = nodeIdOf o)
    (uid : String) (n : NodeId) (o : Obj)
    (HRo : ∀ g : GraphState, ∀ e, e ∈ (resolve g o).2.edges →
      e ∈ g.edges ∨ e.src ≠ n) (refs : List OwnerRef) :
    ∀ (g g' : GraphState) (e? : Option RErr),
    ownerLoop resolve uid n o g refs = (g', e?) →
    ∀ e, e ∈ g'.edges → e ∈ g.edges ∨ e.src ≠ n ∨
      (e = ⟨n, o.kind, nodeIdOf o⟩ ∧ ∃ r, r ∈ refs ∧ r.uid = uid) := by
  induction refs with
  | nil =>
    intro g g' e? h e he
    simp only [ownerLoop] at h
    injection h with h1 h2
    subst h1
    exact .inl he
  | cons r rs ih =>
    intro g g' e? h e he
    rcases hu : r.uid == uid with _ | _
    · rw [ownerLoop_cons_skip resolve uid n o g r rs hu] at h
      rcases ih g g' e? h e he with h1 | h1 | ⟨h1, r', hr', hru⟩
      · exact .inl h1
      · exact .inr (.inl h1)
      · exact .inr (.inr ⟨h1, r', List.mem_cons_of_mem r hr', hru⟩)
    · rcases hres : resolve g o with ⟨res, g1⟩
      have hg1 : ∀ e, e ∈ g1.edges → e ∈ g.edges ∨ e.src ≠ n := by
        intro e he1
        have := HRo g e
        rw [hres] at this
        exact this he1
      rcases res with cn | ⟨pn, er⟩
      · rw [ownerLoop_cons_ok resolve uid n o g g1 r rs cn hu hres] at h
        have hcn : cn = nodeIdOf o := Hok g o cn g1 hres
        subst hcn
        rcases ih _ g' e? h e he with h1 | h1 | ⟨h1, r', hr', hru⟩
        · rcases relationship_edges_sub h1 with h2 | rfl
          · rcases hg1 e h2 with h3 | h3
            · exact .inl h3
            · exact .inr (.inl h3)
          · exact .inr (.inr ⟨rfl, r, List.mem_cons_self r rs,
              by simpa using hu⟩)
        · exact .inr (.inl h1)
        · exact .inr (.inr ⟨h1, r', List.mem_cons_of_mem r hr', hru⟩)
      · rw [ownerLoop_cons_fail resolve uid n o g g1 r rs pn er hu hres] at h
        injection h with h1 h2
        subst h1
        rcases hg1 e he with h3 | h3
        · exact .inl h3
        · exact .inr (.inl h3)

theorem appsetLoop_from_n (resolve : GraphState → Obj → RRes × GraphState)
    (Hok : ∀ g o cn g', resolve g o = (.ok cn, g') → cn = nodeIdOf o)
    (uid : String) (n : NodeId) (objs : List Obj)
    (HR : ∀ (g : GraphState) (o : Obj), o ∈ objs → ∀ e,
      e ∈ (resolve g o).2.edges → e ∈ g.edges ∨ e.src ≠ n) :
    ∀ (g g' : GraphState) (e? : Option RErr),
    appsetLoop resolve uid n g objs = (g', e?) →
    ∀ e, e ∈ g'.edges → e ∈ g.edges ∨ e.src ≠ n ∨
      ∃ o, o ∈ objs ∧ e = ⟨n, o.kind, nodeIdOf o⟩ ∧
        ∃ r, r ∈ o.ownerReferences ∧ r.uid = uid := by
  induction objs with
  | nil =>
    intro g g' e? h e he
    simp only [appsetLoop] at h
    injection h with h1 h2
    subst h1
    exact .inl he
  | cons o1 rest ih =>
    have HRrest : ∀ (g : GraphState) (o : Obj), o ∈ rest → ∀ e,
        e ∈ (resolve g o).2.edges → e ∈ g.edges ∨ e.src ≠ n :=
      fun g o ho => HR g o (List.mem_cons_of_mem o1 ho)
    intro g g' e? h e he
    rcases ho1 : ownerLoop resolve uid n o1 g o1.ownerReferences with ⟨g1, eo⟩
    have hstep : ∀ e, e ∈ g1.edges → e ∈ g.edges ∨ e.src ≠ n ∨
        ∃ o, o ∈ o1 :: rest ∧ e = ⟨n, o.kind, nodeIdOf o⟩ ∧
          ∃ r, r ∈ o.ownerReferences ∧ r.uid = uid := by
      intro e he1
      rcases ownerLoop_from_n resolve Hok uid n o1
          (fun g => HR g o1 (List.mem_cons_self o1 rest)) o1.ownerReferences
          g g1 eo ho1 e he1 with h1 | h1 | ⟨h1, hr⟩
      · exact .inl h1
      · exact .inr (.inl h1)
      · exact .inr (.inr ⟨o1, List.mem_cons_self o1 rest, h1, hr⟩)
    rcases eo with _ | er
    · rw [appsetLoop_cons_ok resolve uid n g g1 o1 rest ho1] at h
      rcases ih HRrest g1 g' e? h e he with h1 | h1 | ⟨o, ho, h2, hr⟩
      · exact hstep e h1
      · exact .inr (.inl h1)
      · exact .inr (.inr ⟨o, List.mem_cons_of_mem o1 ho, h2, hr⟩)
    · rw [appsetLoop_cons_fail resolve uid n g g1 o1 rest er ho1] at h
      injection h with h1 h2
      subst h1
      exact hstep e he

theorem ownerLoop_newSrc (resolve : GraphState → Obj → RRes × GraphState)
    (S : NodeId → Prop) (uid : String) (n : NodeId) (o : Obj)
    (HRo : ∀ g : GraphState, ∀ e, e ∈ (resolve g o).2.edges →
      e ∈ g.edges ∨ S e.src)
    (HS : S n) (refs : List OwnerRef) :
    ∀ g : GraphState, ∀ e, e ∈ (ownerLoop resolve uid n o g refs).1.edges →
      e ∈ g.edges ∨ S e.src := by
  induction refs with
  | nil =>
    intro g e he
    simp only [ownerLoop] at he
    exact .inl he
  | cons r rs ih =>
    intro g e he
    rcases hu : r.uid == uid with _ | _
    · rw [ownerLoop_cons_skip resolve uid n o g r rs hu] at he
      exact ih g e he
    · rcases hres : resolve g o with ⟨res, g1⟩
      have hg1 : ∀ e, e ∈ g1.edges → e ∈ g.edges ∨ S e.src := by
        intro e he1
        have := HRo g e
        rw [hres] at this
        exact this he1
      rcases res with cn | ⟨pn, er⟩
      · rw [ownerLoop_cons_ok resolve uid n o g g1 r rs cn hu hres] at he
        rcases ih _ e he with h1 | h1
        · rcases relationship_edges_sub h1 with h2 | rfl
          · exact hg1 e h2
          · exact .inr HS
        · exact .inr h1
      · rw [ownerLoop_cons_fail resolve uid n o g g1 r rs pn er hu hres] at he
        exact hg1 e he

theorem appsetLoop_newSrc (resolve : GraphState → Obj → RRes × GraphState)
    (S : NodeId → Prop) (uid : String) (n : NodeId) (objs : List Obj)
    (HR : ∀ (g : GraphState) (o : Obj), o ∈ objs → ∀ e,
      e ∈ (resolve g o).2.edges → e ∈ g.edges ∨ S e.src)
    (HS : S n) :
    ∀ g : GraphState, ∀ e, e ∈ (appsetLoop resolve uid n g objs).1.edges →
      e ∈ g.edges ∨ S e.src := by
  induction objs with
  | nil =>
    intro g e he
    simp only [appsetLoop] at he
    exact .inl he
  | cons o1 rest ih =>
    have HRrest : ∀ (g : GraphState) (o : Obj), o ∈ rest → ∀ e,
        e ∈ (resolve g o).2.edges → e ∈ g.edges ∨ S e.src :=
      fun g o ho => HR g o (List.mem_cons_of_mem o1 ho)
    intro g e he
    rcases ho1 : ownerLoop resolve uid n o1 g o1.ownerReferences with ⟨g1, eo⟩
    have hstep : ∀ e, e ∈ g1.edges → e ∈ g.edges ∨ S e.src := by
      intro e he1
      have := ownerLoop_newSrc resolve S uid n o1
        (fun g => HR g o1 (List.mem_cons_self o1 rest)) HS
        o1.ownerReferences g e
      rw [ho1] at this
      exact this he1
    rcases eo with _ | er
    · rw [appsetLoop_cons_ok resolve uid n g g1 o1 rest ho1] at he
      rcases ih HRrest g1 e he with h1 | h1
      · exact hstep e h1
      · exact .inr h1
    · rw [appsetLoop_cons_fail resolve uid n g g1 o1 rest er ho1] at he
      exact hstep e he

/-! ## Resolver-level properties -/

theorem mem_pool_of_universe {c : Cluster} {objs : List Obj} {o : Obj}
    (h : getAllObjects c = .ok objs) (ho : o ∈ objs) : o ∈ harvestPool c := by
  unfold harvestPool
  rw [h]
  exact List.mem_append_left _ ho

theorem mem_pool_of_apps {c : Cluster} {objs : List Obj} {o : Obj}
    (h : getChildApplications c = .ok objs) (ho : o ∈ objs) :
    o ∈ harvestPool c := by
  unfold harvestPool
  rw [h]
  exact List.mem_append_right _ ho


/-! ## Unfolding equations for the resolvers -/

theorem Application_eq_malformed (resolve : GraphState → Obj → RRes × GraphState)
    (c : Cluster) (g : GraphState) (app : Obj)
    (hsp : app.specProject = none) :
    Application resolve c g app = (.fail none .malformedSpec, (g.node app).2) := by
  unfold Application
  simp [hsp]

theorem Application_eq_harvest_fail
    (resolve : GraphState → Obj → RRes × GraphState) (c : Cluster)
    (g : GraphState) (app : Obj) (p : String) (e : RErr)
    (hsp : app.specProject = some p) (hga : getAllObjects c = .error e) :
    Application resolve c g app = (.fail none e, (g.node app).2) := by
  unfold Application
  simp [hsp, hga]

theorem Application_eq_pass1_fail
    (resolve : GraphState → Obj → RRes × GraphState) (c : Cluster)
    (g : GraphState) (app : Obj) (p : String) (objs : List Obj)
    (g1 : GraphState) (ch : List Obj) (nss : List String) (e : RErr)
    (hsp : app.specProject = some p) (hga : getAllObjects c = .ok objs)
    (h1 : pass1 resolve app.name p (g.node app).1 (g.node app).2 objs [] [] =
      (g1, ch, nss, some e)) :
    Application resolve c g app = (.fail (some (g.node app).1) e, g1) := by
  unfold Application
  simp [hsp, hga, h1]

theorem Application_eq_children_fail
    (resolve : GraphState → Obj → RRes × GraphState) (c : Cluster)
    (g : GraphState) (app : Obj) (p : String) (objs : List Obj)
    (g1 g2 : GraphState) (ch : List Obj) (nss : List String) (e : RErr)
    (hsp : app.specProject = some p) (hga : getAllObjects c = .ok objs)
    (h1 : pass1 resolve app.name p (g.node app).1 (g.node app).2 objs [] [] =
      (g1, ch, nss, none))
    (h2 : resolveChildren resolve (g.node app).1 g1 (pass2 nss objs ch) =
      (g2, some e)) :
    Application resolve c g app = (.fail (some (g.node app).1) e, g2) := by
  unfold Application
  simp [hsp, hga, h1, h2]

theorem Application_eq_ok
    (resolve : GraphState → Obj → RRes × GraphState) (c : Cluster)
    (g : GraphState) (app : Obj) (p : String) (objs : List Obj)
    (g1 g2 : GraphState) (ch : List Obj) (nss : List String)
    (hsp : app.specProject = some p) (hga : getAllObjects c = .ok objs)
    (h1 : pass1 resolve app.name p (g.node app).1 (g.node app).2 objs [] [] =
      (g1, ch, nss, none))
    (h2 : resolveChildren resolve (g.node app).1 g1 (pass2 nss objs ch) =
      (g2, none)) :
    Application resolve c g app = (.ok (g.node app).1, g2) := by
  unfold Application
  simp [hsp, hga, h1, h2]

theorem ApplicationSet_eq_harvest_fail
    (resolve : GraphState → Obj → RRes × GraphState) (c : Cluster)
    (g : GraphState) (appset : Obj) (e : RErr)
    (hga : getChildApplications c = .error e) :
    ApplicationSet resolve c g appset = (.fail none e, g) := by
  unfold ApplicationSet
  simp [hga]

theorem ApplicationSet_eq_loop_fail
    (resolve : GraphState → Obj → RRes × GraphState) (c : Cluster)
    (g g1 : GraphState) (appset : Obj) (objs : List Obj) (e : RErr)
    (hga : getChildApplications c = .ok objs)
    (hl : appsetLoop resolve appset.uid (g.node appset).1 (g.node appset).2
      objs = (g1, some e)) :
    ApplicationSet resolve c g appset = (.fail none e, g1) := by
  unfold ApplicationSet
  simp [hga, hl]

theorem ApplicationSet_eq_ok
    (resolve : GraphState → Obj → RRes × GraphState) (c : Cluster)
    (g g1 : GraphState) (appset : Obj) (objs : List Obj)
    (hga : getChildApplications c = .ok objs)
    (hl : appsetLoop resolve appset.uid (g.node appset).1 (g.node appset).2
      objs = (g1, none)) :
    ApplicationSet resolve c g appset = (.ok (g.node appset).1, g1) := by
  unfold ApplicationSet
  simp [hga, hl]

theorem Unstructured_eq_appset (fuel : Nat) (c : Cluster) (g : GraphState)
    (o : Obj) (hk : o.kind = "ApplicationSet") :
    Unstructured (fuel + 1) c g o =
      ApplicationSet (Unstructured fuel c) c g o := by
  rw [Unstructured]
  simp [hk]

theorem Unstructured_eq_app (fuel : Nat) (c : Cluster) (g : GraphState)
    (o : Obj) (hk : o.kind = "Application") :
    Unstructured (fuel + 1) c g o =
      Application (Unstructured fuel c) c g o := by
  rw [Unstructured]
  simp [hk]

theorem Unstructured_eq_appproject (fuel : Nat) (c : Cluster) (g : GraphState)
    (o : Obj) (hk : o.kind = "AppProject") :
    Unstructured (fuel + 1) c g o = AppProject g o := by
  rw [Unstructured]
  simp [hk]

theorem Unstructured_eq_leaf (fuel : Nat) (c : Cluster) (g : GraphState)
    (o : Obj) (h1 : o.kind ≠ "ApplicationSet") (h2 : o.kind ≠ "Application")
    (h3 : o.kind ≠ "AppProject") :
    Unstructured (fuel + 1) c g o = (.ok (g.node o).1, (g.node o).2) := by
  rw [Unstructured]
  simp [h1, h2, h3]

/-! ## Resolver-level properties -/

theorem Application_ext (resolve : GraphState → Obj → RRes × GraphState)
    (Hext : ∀ g o, ExtendsE g (resolve g o).2) (c : Cluster) (g : GraphState)
    (app : Obj) : ExtendsE g (Application resolve c g app).2 := by
  rcases hsp : app.specProject with _ | p
  · rw [Application_eq_malformed resolve c g app hsp]
    exact node_extendsE g app
  · rcases hga : getAllObjects c with e | objs
    · rw [Application_eq_harvest_fail resolve c g app p e hsp hga]
      exact node_extendsE g app
    · rcases h1 : pass1 resolve app.name p (g.node app).1 (g.node app).2
          objs [] [] with ⟨g1, ch, nss, e1⟩
      have hx1 : ExtendsE g g1 := by
        refine extendsE_trans (node_extendsE g app) ?_
        have := pass1_ext resolve Hext app.name p (g.node app).1 objs
          (g.node app).2 [] []
        rwa [h1] at this
      rcases e1 with _ | e1
      · rcases h2 : resolveChildren resolve (g.node app).1 g1
            (pass2 nss objs ch) with ⟨g2, e2⟩
        have hx2 : ExtendsE g1 g2 := by
          have := resolveChildren_ext resolve Hext (g.node app).1
            (pass2 nss objs ch) g1
          rwa [h2] at this
        rcases e2 with _ | e2
        · rw [Application_eq_ok resolve c g app p objs g1 g2 ch nss hsp hga h1 h2]
          exact extendsE_trans hx1 hx2
        · rw [Application_eq_children_fail resolve c g app p objs g1 g2 ch nss
            e2 hsp hga h1 h2]
          exact extendsE_trans hx1 hx2
      · rw [Application_eq_pass1_fail resolve c g app p objs g1 ch nss e1
          hsp hga h1]
        exact hx1

theorem ApplicationSet_ext (resolve : GraphState → Obj → RRes × GraphState)
    (Hext : ∀ g o, ExtendsE g (resolve g o).2) (c : Cluster) (g : GraphState)
    (appset : Obj) : ExtendsE g (ApplicationSet resolve c g appset).2 := by
  rcases hga : getChildApplications c with e | objs
  · rw [ApplicationSet_eq_harvest_fail resolve c g appset e hga]
    exact extendsE_refl g
  · rcases hl : appsetLoop resolve appset.uid (g.node appset).1
        (g.node appset).2 objs with ⟨g1, e1⟩
    have hx1 : ExtendsE g g1 := by
      refine extendsE_trans (node_extendsE g appset) ?_
      have := appsetLoop_ext resolve Hext appset.uid (g.node appset).1 objs
        (g.node appset).2
      rwa [hl] at this
    rcases e1 with _ | e1
    · rw [ApplicationSet_eq_ok resolve c g g1 appset objs hga hl]
      exact hx1
    · rw [ApplicationSet_eq_loop_fail resolve c g g1 appset objs e1 hga hl]
      exact hx1

theorem Unstructured_ext (c : Cluster) :
    ∀ (fuel : Nat) (g : GraphState) (o : Obj),
    ExtendsE g (Unstructured fuel c g o).2 := by
  intro fuel
  induction fuel with
  | zero =>
    intro g o
    exact extendsE_refl g
  | succ fuel ih =>
    intro g o
    by_cases hk1 : o.kind = "ApplicationSet"
    · rw [Unstructured_eq_appset fuel c g o hk1]
      exact ApplicationSet_ext (Unstructured fuel c) ih c g o
    · by_cases hk2 : o.kind = "Application"
      · rw [Unstructured_eq_app fuel c g o hk2]
        exact Application_ext (Unstructured fuel c) ih c g o
      · by_cases hk3 : o.kind = "AppProject"
        · rw [Unstructured_eq_appproject fuel c g o hk3]
          exact node_extendsE g o
        · rw [Unstructured_eq_leaf fuel c g o hk1 hk2 hk3]
          exact node_extendsE g o

theorem Application_okNode (resolve : GraphState → Obj → RRes × GraphState)
    (c : Cluster) (g : GraphState) (app : Obj) (n : NodeId) (g' : GraphState)
    (h : Application resolve c g app = (.ok n, g')) : n = nodeIdOf app := by
  rcases hsp : app.specProject with _ | p
  · rw [Application_eq_malformed resolve c g app hsp] at h
    injection h with h1 h2
    cases h1
  · rcases hga : getAllObjects c with e | objs
    · rw [Application_eq_harvest_fail resolve c g app p e hsp hga] at h
      injection h with h1 h2
      cases h1
    · rcases h1 : pass1 resolve app.name p (g.node app).1 (g.node app).2
          objs [] [] with ⟨g1, ch, nss, e1⟩
      rcases e1 with _ | e1
      · rcases h2 : resolveChildren resolve (g.node app).1 g1
            (pass2 nss objs ch) with ⟨g2, e2⟩
        rcases e2 with _ | e2
        · rw [Application_eq_ok resolve c g app p objs g1 g2 ch nss hsp hga
            h1 h2] at h
          injection h with h1 h2
          injection h1 with h1
          rw [node_fst] at h1
          exact h1.symm
        · rw [Application_eq_children_fail resolve c g app p objs g1 g2 ch nss
            e2 hsp hga h1 h2] at h
          injection h with h1 h2
          cases h1
      · rw [Application_eq_pass1_fail resolve c g app p objs g1 ch nss e1
          hsp hga h1] at h
        injection h with h1 h2
        cases h1

theorem ApplicationSet_okNode (resolve : GraphState → Obj → RRes × GraphState)
    (c : Cluster) (g : GraphState) (appset : Obj) (n : NodeId)
    (g' : GraphState) (h : ApplicationSet resolve c g appset = (.ok n, g')) :
    n = nodeIdOf appset := by
  rcases hga : getChildApplications c with e | objs
  · rw [ApplicationSet_eq_harvest_fail resolve c g appset e hga] at h
    injection h with h1 h2
    cases h1
  · rcases hl : appsetLoop resolve appset.uid (g.node appset).1
        (g.node appset).2 objs with ⟨g1, e1⟩
    rcases e1 with _ | e1
    · rw [ApplicationSet_eq_ok resolve c g g1 appset objs hga hl] at h
      injection h with h1 h2
      injection h1 with h1
      rw [node_fst] at h1
      exact h1.symm
    · rw [ApplicationSet_eq_loop_fail resolve c g g1 appset objs e1 hga hl] at h
      injection h with h1 h2
      cases h1

theorem Unstructured_okNode (c : Cluster) :
    ∀ (fuel : Nat) (g : GraphState) (o : Obj) (n : NodeId) (g' : GraphState),
    Unstructured fuel c g o = (.ok n, g') → n = nodeIdOf o := by
  intro fuel
  cases fuel with
  | zero =>
    intro g o n g' h
    injection h with h1 h2
    cases h1
  | succ fuel =>
    intro g o n g' h
    by_cases hk1 : o.kind = "ApplicationSet"
    · rw [Unstructured_eq_appset fuel c g o hk1] at h
      exact ApplicationSet_okNode (Unstructured fuel c) c g o n g' h
    · by_cases hk2 : o.kind = "Application"
      · rw [Unstructured_eq_app fuel c g o hk2] at h
        exact Application_okNode (Unstructured fuel c) c g o n g' h
      · by_cases hk3 : o.kind = "AppProject"
        · rw [Unstructured_eq_appproject fuel c g o hk3] at h
          unfold AppProject at h
          injection h with h1 h2
          injection h1 with h1
          rw [node_fst] at h1
          exact h1.symm
        · rw [Unstructured_eq_leaf fuel c g o hk1 hk2 hk3] at h
          injection h with h1 h2
          injection h1 with h1
          rw [node_fst] at h1
          exact h1.symm

theorem Application_src (resolve : GraphState → Obj → RRes × GraphState)
    (c : Cluster)
    (Hsrc : ∀ g o, ∀ e, e ∈ (resolve g o).2.edges →
      e ∈ g.edges ∨ SrcOK c o e.src)
    (g : GraphState) (app : Obj) :
    ∀ e, e ∈ (Application resolve c g app).2.edges →
      e ∈ g.edges ∨ SrcOK c app e.src := by
  intro e he
  rcases hsp : app.specProject with _ | p
  · rw [Application_eq_malformed resolve c g app hsp] at he
    rw [node_edges] at he
    exact .inl he
  · rcases hga : getAllObjects c with er | objs
    · rw [Application_eq_harvest_fail resolve c g app p er hsp hga] at he
      rw [node_edges] at he
      exact .inl he
    · have HR : ∀ (gm : GraphState) (o : Obj), o ∈ objs → ∀ e,
          e ∈ (resolve gm o).2.edges → e ∈ gm.edges ∨ SrcOK c app e.src := by
        intro gm o ho e he1
        rcases Hsrc gm o e he1 with h1 | h1 | ⟨u, hu, h2⟩
        · exact .inl h1
        · exact .inr (.inr ⟨o, mem_pool_of_universe hga ho, h1⟩)
        · exact .inr (.inr ⟨u, hu, h2⟩)
      have HS : SrcOK c app (g.node app).1 := by
        rw [node_fst]
        exact .inl rfl
      rcases h1 : pass1 resolve app.name p (g.node app).1 (g.node app).2
          objs [] [] with ⟨g1, ch, nss, e1⟩
      have hg1 : ∀ e, e ∈ g1.edges → e ∈ g.edges ∨ SrcOK c app e.src := by
        intro e he1
        have := pass1_newSrc resolve (SrcOK c app) app.name p (g.node app).1
          objs HR HS (g.node app).2 [] [] e
        rw [h1] at this
        rcases this he1 with h2 | h2
        · rw [node_edges] at h2
          exact .inl h2
        · exact .inr h2
      rcases e1 with _ | e1
      · rcases h2 : resolveChildren resolve (g.node app).1 g1
            (pass2 nss objs ch) with ⟨g2, e2⟩
        have hchsub : ∀ x, x ∈ pass2 nss objs ch → x ∈ objs := by
          intro x hx
          rcases (pass2_mem nss objs ch x).1 hx with hx1 | hx1
          · have := ((pass1_none_mem resolve app.name p (g.node app).1 objs
              (g.node app).2 [] [] g1 ch nss h1).1 x).1 hx1
            rcases this with h3 | ⟨h3, -⟩
            · cases h3
            · exact h3
          · exact hx1.1
        have HRch : ∀ (gm : GraphState) (o : Obj), o ∈ pass2 nss objs ch →
            ∀ e, e ∈ (resolve gm o).2.edges →
              e ∈ gm.edges ∨ SrcOK c app e.src :=
          fun gm o ho => HR gm o (hchsub o ho)
        have hg2 : ∀ e, e ∈ g2.edges → e ∈ g1.edges ∨ SrcOK c app e.src := by
          intro e he1
          have := resolveChildren_newSrc resolve (SrcOK c app) (g.node app).1
            (pass2 nss objs ch) HRch HS g1 e
          rw [h2] at this
          exact this he1
        have hfin : ∀ e, e ∈ g2.edges → e ∈ g.edges ∨ SrcOK c app e.src := by
          intro e he1
          rcases hg2 e he1 with h3 | h3
          · exact hg1 e h3
          · exact .inr h3
        rcases e2 with _ | e2
        · rw [Application_eq_ok resolve c g app p objs g1 g2 ch nss hsp hga
            h1 h2] at he
          exact hfin e he
        · rw [Application_eq_children_fail resolve c g app p objs g1 g2 ch nss
            e2 hsp hga h1 h2] at he
          exact hfin e he
      · rw [Application_eq_pass1_fail resolve c g app p objs g1 ch nss e1
          hsp hga h1] at he
        exact hg1 e he

theorem ApplicationSet_src (resolve : GraphState → Obj → RRes × GraphState)
    (c : Cluster)
    (Hsrc : ∀ g o, ∀ e, e ∈ (resolve g o).2.edges →
      e ∈ g.edges ∨ SrcOK c o e.src)
    (g : GraphState) (appset : Obj) :
    ∀ e, e ∈ (ApplicationSet resolve c g appset).2.edges →
      e ∈ g.edges ∨ SrcOK c appset e.src := by
  intro e he
  rcases hga : getChildApplications c with er | objs
  · rw [ApplicationSet_eq_harvest_fail resolve c g appset er hga] at he
    exact .inl he
  · have HR : ∀ (gm : GraphState) (o : Obj), o ∈ objs → ∀ e,
        e ∈ (resolve gm o).2.edges → e ∈ gm.edges ∨ SrcOK c appset e.src := by
      intro gm o ho e he1
      rcases Hsrc gm o e he1 with h1 | h1 | ⟨u, hu, h2⟩
      · exact .inl h1
      · exact .inr (.inr ⟨o, mem_pool_of_apps hga ho, h1⟩)
      · exact .inr (.inr ⟨u, hu, h2⟩)
    have HS : SrcOK c appset (g.node appset).1 := by
      rw [node_fst]
      exact .inl rfl
    rcases hl : appsetLoop resolve appset.uid (g.node appset).1
        (g.node appset).2 objs with ⟨g1, e1⟩
    have hg1 : ∀ e, e ∈ g1.edges → e ∈ g.edges ∨ SrcOK c appset e.src := by
      intro e he1
      have := appsetLoop_newSrc resolve (SrcOK c appset) appset.uid
        (g.node appset).1 objs HR HS (g.node appset).2 e
      rw [hl] at this
      rcases this he1 with h2 | h2
      · rw [node_edges] at h2
        exact .inl h2
      · exact .inr h2
    rcases e1 with _ | e1
    · rw [ApplicationSet_eq_ok resolve c g g1 appset objs hga hl] at he
      exact hg1 e he
    · rw [ApplicationSet_eq_loop_fail resolve c g g1 appset objs e1 hga hl] at he
      exact hg1 e he

theorem Unstructured_src (c : Cluster) :
    ∀ (fuel : Nat) (g : GraphState) (o : Obj),
    ∀ e, e ∈ (Unstructured fuel c g o).2.edges →
      e ∈ g.edges ∨ SrcOK c o e.src := by
  intro fuel
  induction fuel with
  | zero =>
    intro g o e he
    exact .inl he
  | succ fuel ih =>
    intro g o e he
    by_cases hk1 : o.kind = "ApplicationSet"
    · rw [Unstructured_eq_appset fuel c g o hk1] at he
      exact ApplicationSet_src (Unstructured fuel c) c ih g o e he
    · by_cases hk2 : o.kind = "Application"
      · rw [Unstructured_eq_app fuel c g o hk2] at he
        exact Application_src (Unstructured fuel c) c ih g o e he
      · by_cases hk3 : o.kind = "AppProject"
        · rw [Unstructured_eq_appproject fuel c g o hk3] at he
          unfold AppProject at he
          rw [node_edges] at he
          exact .inl he
        · rw [Unstructured_eq_leaf fuel c g o hk1 hk2 hk3] at he
          rw [node_edges] at he
          exact .inl he

/-! ## Application-level edge lemmas -/

theorem Application_child_edge (resolve : GraphState → Obj → RRes × GraphState)
    (Hext : ∀ g o, ExtendsE g (resolve g o).2)
    (Hok : ∀ g o cn g', resolve g o = (.ok cn, g') → cn = nodeIdOf o)
    (c : Cluster) (g g' : GraphState) (app : Obj) (n : NodeId)
    (objs : List Obj) (x : Obj)
    (hga : getAllObjects c = .ok objs)
    (hrun : Application resolve c g app = (.ok n, g'))
    (hx : x ∈ objs)
    (hsig : Sig app.name x ∨
      ∃ m, m ∈ objs ∧ Sig app.name m ∧ m.ns ≠ "" ∧ x.ns = m.ns) :
    Edge.mk n x.kind (nodeIdOf x) ∈ g'.edges := by
  rcases hsp : app.specProject with _ | p
  · rw [Application_eq_malformed resolve c g app hsp] at hrun
    injection hrun with h1 h2
    cases h1
  · rcases h1 : pass1 resolve app.name p (g.node app).1 (g.node app).2
        objs [] [] with ⟨g1, ch, nss, e1⟩
    rcases e1 with _ | e1
    · rcases h2 : resolveChildren resolve (g.node app).1 g1
          (pass2 nss objs ch) with ⟨g2, e2⟩
      rcases e2 with _ | e2
      · rw [Application_eq_ok resolve c g app p objs g1 g2 ch nss hsp hga
          h1 h2] at hrun
        injection hrun with hn hg
        injection hn with hn
        subst hg
        obtain ⟨hcmem, hnmem⟩ := pass1_none_mem resolve app.name p
          (g.node app).1 objs (g.node app).2 [] [] g1 ch nss h1
        have hxch : x ∈ pass2 nss objs ch := by
          rcases hsig with hs | ⟨m, hm, hmsig, hmns, hxns⟩
          · exact (pass2_mem nss objs ch x).2 (.inl ((hcmem x).2 (.inr ⟨hx, hs⟩)))
          · refine (pass2_mem nss objs ch x).2 (.inr ⟨hx, ?_⟩)
            rw [hxns]
            exact (hnmem m.ns).2 (.inr ⟨m, hm, hmsig, rfl, hmns⟩)
        have := resolveChildren_ok_edges resolve Hext Hok (g.node app).1
          (pass2 nss objs ch) g1 g2 h2 x hxch
        rw [← hn]
        exact this
      · rw [Application_eq_children_fail resolve c g app p objs g1 g2 ch nss
          e2 hsp hga h1 h2] at hrun
        injection hrun with hn hg
        cases hn
    · rw [Application_eq_pass1_fail resolve c g app p objs g1 ch nss e1
        hsp hga h1] at hrun
      injection hrun with hn hg
      cases hn

theorem Application_project_edge_lemma
    (resolve : GraphState → Obj → RRes × GraphState)
    (Hext : ∀ g o, ExtendsE g (resolve g o).2)
    (Hok : ∀ g o cn g', resolve g o = (.ok cn, g') → cn = nodeIdOf o)
    (c : Cluster) (g g' : GraphState) (app : Obj) (n : NodeId) (p : String)
    (objs : List Obj) (x : Obj)
    (hsp : app.specProject = some p)
    (hga : getAllObjects c = .ok objs)
    (hrun : Application resolve c g app = (.ok n, g'))
    (hx : x ∈ objs) (hguard : projGuard p x = true) :
    Edge.mk n x.kind (nodeIdOf x) ∈ g'.edges := by
  rcases h1 : pass1 resolve app.name p (g.node app).1 (g.node app).2
      objs [] [] with ⟨g1, ch, nss, e1⟩
  rcases e1 with _ | e1
  · rcases h2 : resolveChildren resolve (g.node app).1 g1
        (pass2 nss objs ch) with ⟨g2, e2⟩
    rcases e2 with _ | e2
    · rw [Application_eq_ok resolve c g app p objs g1 g2 ch nss hsp hga
        h1 h2] at hrun
      injection hrun with hn hg
      injection hn with hn
      subst hg
      have hedge := pass1_project_edge resolve Hext Hok app.name p
        (g.node app).1 objs (g.node app).2 [] [] g1 ch nss h1 x hx hguard
      have hext : ExtendsE g1 g2 := by
        have := resolveChildren_ext resolve Hext (g.node app).1
          (pass2 nss objs ch) g1
        rwa [h2] at this
      rw [← hn]
      exact extendsE_mem hext hedge
    · rw [Application_eq_children_fail resolve c g app p objs g1 g2 ch nss
        e2 hsp hga h1 h2] at hrun
      injection hrun with hn hg
      cases hn
  · rw [Application_eq_pass1_fail resolve c g app p objs g1 ch nss e1
      hsp hga h1] at hrun
    injection hrun with hn hg
    cases hn

theorem Application_fail_shape (resolve : GraphState → Obj → RRes × GraphState)
    (c : Cluster) (g g' : GraphState) (app : Obj) (pn : Option NodeId)
    (e : RErr) (p : String) (objs : List Obj)
    (hsp : app.specProject = some p)
    (hga : getAllObjects c = .ok objs)
    (h : Application resolve c g app = (.fail pn e, g')) :
    pn = some (nodeIdOf app) := by
  rcases h1 : pass1 resolve app.name p (g.node app).1 (g.node app).2
      objs [] [] with ⟨g1, ch, nss, e1⟩
  rcases e1 with _ | e1
  · rcases h2 : resolveChildren resolve (g.node app).1 g1
        (pass2 nss objs ch) with ⟨g2, e2⟩
    rcases e2 with _ | e2
    · rw [Application_eq_ok resolve c g app p objs g1 g2 ch nss hsp hga
        h1 h2] at h
      injection h with hn hg
      cases hn
    · rw [Application_eq_children_fail resolve c g app p objs g1 g2 ch nss
        e2 hsp hga h1 h2] at h
      injection h with hn hg
      injection hn with hn1 hn2
      rw [← hn1, node_fst]
  · rw [Application_eq_pass1_fail resolve c g app p objs g1 ch nss e1
      hsp hga h1] at h
    injection h with hn hg
    injection hn with hn1 hn2
    rw [← hn1, node_fst]

theorem ApplicationSet_children_exact (fuel : Nat) (c : Cluster) (S : Obj)
    (g' : GraphState) (n : NodeId) (apps : List Obj)
    (happs : getChildApplications c = .ok apps)
    (hpool : ∀ u, u ∈ harvestPool c → nodeIdOf u ≠ nodeIdOf S)
    (hrun : ApplicationSet (Unstructured fuel c) c emptyG S = (.ok n, g')) :
    ∀ l d, Edge.mk n l d ∈ g'.edges ↔
      ∃ o, o ∈ apps ∧ (∃ r, r ∈ o.ownerReferences ∧ r.uid = S.uid) ∧
        l = o.kind ∧ d = nodeIdOf o := by
  have Hext := Unstructured_ext c fuel
  have Hok := fun g o cn g' => Unstructured_okNode c fuel g o cn g'
  rcases hl : appsetLoop (Unstructured fuel c) S.uid (emptyG.node S).1
      (emptyG.node S).2 apps with ⟨g1, e1⟩
  rcases e1 with _ | e1
  · rw [ApplicationSet_eq_ok (Unstructured fuel c) c emptyG g1 S apps
      happs hl] at hrun
    injection hrun with hn hg
    injection hn with hn
    subst hg
    intro l d
    constructor
    · intro he
      have HR : ∀ (gm : GraphState) (o : Obj), o ∈ apps → ∀ e,
          e ∈ ((Unstructured fuel c) gm o).2.edges →
            e ∈ gm.edges ∨ e.src ≠ (emptyG.node S).1 := by
        intro gm o ho e he1
        rcases Unstructured_src c fuel gm o e he1 with h1 | h1 | ⟨u, hu, h2⟩
        · exact .inl h1
        · refine .inr ?_
          rw [h1, node_fst]
          exact hpool o (mem_pool_of_apps happs ho)
        · refine .inr ?_
          rw [h2, node_fst]
          exact hpool u hu
      have := appsetLoop_from_n (Unstructured fuel c) Hok S.uid
        (emptyG.node S).1 apps HR (emptyG.node S).2 g1 none hl
        (Edge.mk n l d) he
      rcases this with h1 | h1 | ⟨o, ho, heq, r, hr, hru⟩
      · rw [node_edges] at h1
        cases h1
      · exact absurd hn.symm h1
      · injection heq with hsrc hlab hdst
        exact ⟨o, ho, ⟨r, hr, hru⟩, hlab, hdst⟩
    · rintro ⟨o, ho, ⟨r, hr, hru⟩, rfl, rfl⟩
      have := appsetLoop_ok_edges (Unstructured fuel c) Hext Hok S.uid
        (emptyG.node S).1 apps (emptyG.node S).2 g1 hl o ho
        ⟨r, hr, hru⟩
      rw [← hn]
      exact this
  · rw [ApplicationSet_eq_loop_fail (Unstructured fuel c) c emptyG g1 S
      apps e1 happs hl] at hrun
    injection hrun with hn hg
    cases hn

/-! ## Claim theorems -/

/-- C1 (counterexample): the claim fails when the signal-matched object
is cluster-scoped.  In `cluC1` the ConfigMap `mC1` matches by
tracking-id annotation and has the empty namespace; the Secret `sC1`
shares that (empty) namespace, resolution of `app1` succeeds, and yet
no edge to the Secret is produced — the code only records non-empty
namespaces in the closure set. -/
theorem c1_namespace_closure_cex :
    getAllObjects cluC1 = .ok [mC1, sC1] ∧
    trackingAnnot appC1.name mC1 = true ∧
    sC1.ns = mC1.ns ∧
    (Application (Unstructured 2 cluC1) cluC1 emptyG appC1).1 =
      .ok (nodeIdOf appC1) ∧
    Edge.mk (nodeIdOf appC1) sC1.kind (nodeIdOf sC1) ∉
      (Application (Unstructured 2 cluC1) cluC1 emptyG appC1).2.edges := by
  refine ⟨?_, ?_, ?_, ?_, ?_⟩ <;> decide

/-- C1 (amended): for every object O of the harvested universe whose
namespace is NON-EMPTY and equals the namespace of some object matched
by tracking signal (2) or (3), a successful resolution of the
Application adds O to the children and produces an edge from the
Application's node to O's node labeled with O's kind. -/
theorem c1_namespace_closure_amended (fuel : Nat) (c : Cluster)
    (g g' : GraphState) (app o m : Obj) (n : NodeId) (objs : List Obj)
    (hga : getAllObjects c = .ok objs) (ho : o ∈ objs) (hm : m ∈ objs)
    (hmsig : trackingAnnot app.name m = true ∨ instanceLabel app.name m = true)
    (hmns : m.ns ≠ "") (hsame : o.ns = m.ns)
    (hrun : Application (Unstructured fuel c) c g app = (.ok n, g')) :
    Edge.mk n o.kind (nodeIdOf o) ∈ g'.edges :=
  Application_child_edge (Unstructured fuel c) (Unstructured_ext c fuel)
    (fun g o cn g' => Unstructured_okNode c fuel g o cn g') c g g' app n
    objs o hga hrun ho (Or.inr ⟨m, hm, hmsig, hmns, hsame⟩)

/-- Witness for the amended C1: in `cluW1` the Secret `sW1` (no
tracking metadata) lives in `ns1` alongside the annotated ConfigMap
`mW1` and receives its edge. -/
theorem c1_namespace_closure_amended_witness :
    Edge.mk (nodeIdOf appC1) sW1.kind (nodeIdOf sW1) ∈ graW1.edges :=
  c1_namespace_closure_amended 2 cluW1 emptyG graW1 appC1 sW1 mW1
    (nodeIdOf appC1) [mW1, sW1] (by decide) (by decide) (by decide)
    (Or.inl (by decide)) (by decide) (by decide) (by decide)

/-- C2: for every object O in the harvested Object Universe carrying
the tracking-id annotation whose value starts with `"<appName>:"`, a
successful resolution of the Application named `appName` produces an
edge from the Application's node to O's resolved node, labeled with
O's kind. -/
theorem c2_tracking_id_edge (fuel : Nat) (c : Cluster) (g g' : GraphState)
    (app o : Obj) (n : NodeId) (objs : List Obj)
    (hga : getAllObjects c = .ok objs) (ho : o ∈ objs)
    (hsig : trackingAnnot app.name o = true)
    (hrun : Application (Unstructured fuel c) c g app = (.ok n, g')) :
    Edge.mk n o.kind (nodeIdOf o) ∈ g'.edges :=
  Application_child_edge (Unstructured fuel c) (Unstructured_ext c fuel)
    (fun g o cn g' => Unstructured_okNode c fuel g o cn g') c g g' app n
    objs o hga hrun ho (Or.inl (Or.inl hsig))

/-- Witness for C2: the annotated ConfigMap `mW1` receives its edge
when `app1` is resolved against `cluW1`. -/
theorem c2_tracking_id_edge_witness :
    Edge.mk (nodeIdOf appC1) mW1.kind (nodeIdOf mW1) ∈ graC2.edges :=
  c2_tracking_id_edge 2 cluW1 emptyG graC2 appC1 mW1 (nodeIdOf appC1)
    [mW1, sW1] (by decide) (by decide) (by decide) (by decide)

/-- C3: starting from an empty sink, when no harvested object shares
the ApplicationSet's node identity, the edges leaving the
ApplicationSet's node after a successful resolution are exactly one
edge per harvested Application holding an owner reference whose UID
equals the ApplicationSet's UID, labeled with the Application's kind —
label/annotation matches without such an owner reference contribute
nothing, and no namespace-closure or tracking-signal matching takes
part. -/
theorem c3_appset_children_exact (fuel : Nat) (c : Cluster) (S : Obj)
    (g' : GraphState) (n : NodeId) (apps : List Obj)
    (happs : getChildApplications c = .ok apps)
    (hpool : ∀ u, u ∈ harvestPool c → nodeIdOf u ≠ nodeIdOf S)
    (hrun : ApplicationSet (Unstructured fuel c) c emptyG S = (.ok n, g')) :
    ∀ l d, Edge.mk n l d ∈ g'.edges ↔
      ∃ o, o ∈ apps ∧ (∃ r, r ∈ o.ownerReferences ∧ r.uid = S.uid) ∧
        l = o.kind ∧ d = nodeIdOf o :=
  ApplicationSet_children_exact fuel c S g' n apps happs hpool hrun

/-- Witness for C3: in `cluC3`, `set1` (UID `u1`) owns `child1` by
owner reference while `child2` only carries the instance label; the
edge to `child1` exists and is accounted for exactly by the
owner-reference match. -/
theorem c3_appset_children_exact_witness :
    Edge.mk (nodeIdOf setC3) "Application" (nodeIdOf ch1C3) ∈ graC3.edges ↔
      ∃ o, o ∈ [ch1C3, ch2C3] ∧
        (∃ r, r ∈ o.ownerReferences ∧ r.uid = setC3.uid) ∧
        "Application" = o.kind ∧ nodeIdOf ch1C3 = nodeIdOf o :=
  c3_appset_children_exact 3 cluC3 setC3 graC3 (nodeIdOf setC3)
    [ch1C3, ch2C3] (by decide) (by decide) (by decide) "Application"
    (nodeIdOf ch1C3)

/-- C4 (counterexample): a failing list call is not always silent — the
ApplicationSet resolver checks and propagates the error of its
applications list call, so resolving `set1` against `cluC4` surfaces
`listFailure` instead of completing. -/
theorem c4_list_failure_cex :
    listCall cluC4 "argoproj.io/v1alpha1" "applications" = none ∧
    (ApplicationSet (Unstructured 2 cluC4) cluC4 emptyG setC4).1 =
      .fail none .listFailure :=
  ⟨by decide, by decide⟩

/-- C4 (amended): a failing list call for a type contributes an empty
slot, and the full harvest used by Application resolution absorbs every
per-type failure (it only fails on discovery failure); however
ApplicationSet resolution propagates a failure of its applications list
call to the caller. -/
theorem c4_list_failure_amended :
    (∀ (c : Cluster) (cat : List APIResourceList), c.discovery = some cat →
      getAllObjects c = .ok (universeOf c cat)) ∧
    (∀ (c : Cluster) (gv nm : String), listCall c gv nm = none →
      getObjectsForAResource c gv nm = ([], true)) ∧
    (∀ (resolve : GraphState → Obj → RRes × GraphState) (c : Cluster)
      (g : GraphState) (S : Obj),
      listCall c "argoproj.io/v1alpha1" "applications" = none →
      ApplicationSet resolve c g S = (.fail none .listFailure, g)) := by
  refine ⟨?_, ?_, ?_⟩
  · intro c cat h
    simp [getAllObjects, h]
  · intro c gv nm h
    simp [getObjectsForAResource, h]
  · intro resolve c g S h
    have hga : getChildApplications c = .error .listFailure := by
      simp [getChildApplications, getObjectsForAResource, h]
    exact ApplicationSet_eq_harvest_fail resolve c g S .listFailure hga

/-- Witness for the amended C4 at the concrete cluster `cluC4`. -/
theorem c4_list_failure_amended_witness :
    getAllObjects cluC4 = .ok (universeOf cluC4 []) ∧
    getObjectsForAResource cluC4 "argoproj.io/v1alpha1" "applications" =
      ([], true) ∧
    ApplicationSet (Unstructured 2 cluC4) cluC4 emptyG setC4 =
      (.fail none .listFailure, emptyG) :=
  ⟨c4_list_failure_amended.1 cluC4 [] (by decide),
   c4_list_failure_amended.2.1 cluC4 "argoproj.io/v1alpha1" "applications"
     (by decide),
   c4_list_failure_amended.2.2 (Unstructured 2 cluC4) cluC4 emptyG setC4
     (by decide)⟩

/-- C5: dispatching a root of kind `Application` whose `spec.project`
is missing or not a string aborts with the malformed-spec outcome (the
Go type assertion panics), after the Application's node has been
created in the sink; no other outcome is possible. -/
theorem c5_malformed_spec (fuel : Nat) (c : Cluster) (g : GraphState)
    (app : Obj) (hk : app.kind = "Application")
    (hsp : app.specProject = none) :
    Unstructured (fuel + 1) c g app =
      (.fail none .malformedSpec, (g.node app).2) := by
  rw [Unstructured_eq_app fuel c g app hk]
  exact Application_eq_malformed (Unstructured fuel c) c g app hsp

/-- Witness for C5 at the concrete Application `appC5`. -/
theorem c5_malformed_spec_witness :
    Unstructured 1 cluC5 emptyG appC5 =
      (.fail none .malformedSpec, (emptyG.node appC5).2) :=
  c5_malformed_spec 0 cluC5 emptyG appC5 (by decide) (by decide)

/-- C6 (counterexample): when the harvester call fails, the Go code
returns `nil, err` — the Application's node, although already created
in the sink, is NOT returned alongside the error. -/
theorem c6_partial_node_cex :
    (Application (Unstructured 2 cluC6) cluC6 emptyG appC6).1 =
      .fail none .discoveryFailure ∧
    nodeIdOf appC6 ∈
      (Application (Unstructured 2 cluC6) cluC6 emptyG appC6).2.nodes :=
  ⟨by decide, by decide⟩

/-- C6 (amended): any harvester or child error aborts the whole
Application resolution and is returned to the caller; on a POST-HARVEST
failure (a child's recursive resolution) the Application's node
accompanies the error, but on a harvester failure the code returns
`nil` alongside the error even though the node was already created in
the sink. -/
theorem c6_partial_node_amended :
    (∀ (resolve : GraphState → Obj → RRes × GraphState) (c : Cluster)
      (g : GraphState) (app : Obj) (p : String) (e : RErr),
      app.specProject = some p → getAllObjects c = .error e →
      Application resolve c g app = (.fail none e, (g.node app).2) ∧
        nodeIdOf app ∈ ((g.node app).2).nodes) ∧
    (∀ (resolve : GraphState → Obj → RRes × GraphState) (c : Cluster)
      (g g' : GraphState) (app : Obj) (pn : Option NodeId) (e : RErr)
      (p : String) (objs : List Obj),
      app.specProject = some p → getAllObjects c = .ok objs →
      Application resolve c g app = (.fail pn e, g') →
      pn = some (nodeIdOf app)) := by
  constructor
  · intro resolve c g app p e hsp hga
    exact ⟨Application_eq_harvest_fail resolve c g app p e hsp hga,
      node_nodes_mem g app⟩
  · intro resolve c g g' app pn e p objs hsp hga h
    exact Application_fail_shape resolve c g g' app pn e p objs hsp hga h

/-- Witness for the amended C6: the discovery-failure run over `cluC6`
returns no node, and the child-failure run over `cluC6b` (whose tracked
child `badC6` has a malformed spec) returns the Application's own node
alongside the error. -/
theorem c6_partial_node_amended_witness :
    (Application (Unstructured 2 cluC6) cluC6 emptyG appC6 =
        (.fail none .discoveryFailure, (emptyG.node appC6).2) ∧
      nodeIdOf appC6 ∈ ((emptyG.node appC6).2).nodes) ∧
    (some (nodeIdOf appC6) : Option NodeId) = some (nodeIdOf appC6) :=
  ⟨c6_partial_node_amended.1 (Unstructured 2 cluC6) cluC6 emptyG appC6 "p"
     .discoveryFailure (by decide) (by decide),
   c6_partial_node_amended.2 (Unstructured 2 cluC6b) cluC6b emptyG graC6b
     appC6 (some (nodeIdOf appC6)) .malformedSpec "p" [badC6] (by decide)
     (by decide) (by decide)⟩

/-- C7 (counterexample): a Project is NOT excluded from the tracking
signals — the AppProject `other` (which does not match `spec.project`)
carries `app1`'s instance label, is taken into the children set, and
receives an edge. -/
theorem c7_project_signals_cex :
    projC7.kind = "AppProject" ∧
    appC1.specProject = some "p" ∧
    projC7.name ≠ "p" ∧
    instanceLabel appC1.name projC7 = true ∧
    (Application (Unstructured 2 cluC7) cluC7 emptyG appC1).1 =
      .ok (nodeIdOf appC1) ∧
    Edge.mk (nodeIdOf appC1) "AppProject" (nodeIdOf projC7) ∈ graC7.edges := by
  refine ⟨?_, ?_, ?_, ?_, ?_, ?_⟩ <;> decide

/-- C7 (amended): a Project matching `spec.project` by name gains a
direct edge labeled with its kind during pass 1, but Projects are not
exempt from the other rules — a Project carrying tracking signal (2) or
(3) is added to the children set and edged like any other object. -/
theorem c7_project_signals_amended :
    (∀ (fuel : Nat) (c : Cluster) (g g' : GraphState) (app x : Obj)
      (n : NodeId) (p : String) (objs : List Obj),
      app.specProject = some p → getAllObjects c = .ok objs →
      Application (Unstructured fuel c) c g app = (.ok n, g') →
      x ∈ objs → projGuard p x = true →
      Edge.mk n x.kind (nodeIdOf x) ∈ g'.edges) ∧
    (∀ (fuel : Nat) (c : Cluster) (g g' : GraphState) (app x : Obj)
      (n : NodeId) (objs : List Obj),
      getAllObjects c = .ok objs →
      Application (Unstructured fuel c) c g app = (.ok n, g') →
      x ∈ objs → x.kind = "AppProject" →
      (trackingAnnot app.name x = true ∨ instanceLabel app.name x = true) →
      Edge.mk n x.kind (nodeIdOf x) ∈ g'.edges) := by
  constructor
  · intro fuel c g g' app x n p objs hsp hga hrun hx hguard
    exact Application_project_edge_lemma (Unstructured fuel c)
      (Unstructured_ext c fuel)
      (fun g o cn g' => Unstructured_okNode c fuel g o cn g') c g g' app n p
      objs x hsp hga hrun hx hguard
  · intro fuel c g g' app x n objs hga hrun hx _ hsig
    exact Application_child_edge (Unstructured fuel c)
      (Unstructured_ext c fuel)
      (fun g o cn g' => Unstructured_okNode c fuel g o cn g') c g g' app n
      objs x hga hrun hx (Or.inl hsig)

/-- Witness for the amended C7: the matching AppProject `p` of `cluC7b`
gets its direct edge, and the label-carrying AppProject `other` of
`cluC7` gets its children edge. -/
theorem c7_project_signals_amended_witness :
    Edge.mk (nodeIdOf appC1) projC7b.kind (nodeIdOf projC7b) ∈
      graC7b.edges ∧
    Edge.mk (nodeIdOf appC1) projC7.kind (nodeIdOf projC7) ∈ graC7.edges :=
  ⟨c7_project_signals_amended.1 2 cluC7b emptyG graC7b appC1 projC7b
     (nodeIdOf appC1) "p" [projC7b] (by decide) (by decide) (by decide)
     (by decide) (by decide),
   c7_project_signals_amended.2 2 cluC7 emptyG graC7 appC1 projC7
     (nodeIdOf appC1) [projC7] (by decide) (by decide) (by decide)
     (by decide) (Or.inr (by decide))⟩

theorem concatMap_count {α β : Type} [DecidableEq β] (f : α → List β)
    (l : List α) (x : β) :
    (concatMap f l).count x = (l.map fun a => (f a).count x).sum := by
  induction l with
  | nil => simp [concatMap]
  | cons a as ih => simp [concatMap, List.count_append, ih]

/-- C8: given a successful discovery call, the harvested Object
Universe is exactly the concatenation of the per-type result slots (the
non-Event resources of every catalog group, failed slots contributing
nothing): every object of every slot appears with its own multiplicity,
and nothing else appears. -/
theorem c8_universe_concat (c : Cluster) (cat : List APIResourceList)
    (h : c.discovery = some cat) :
    getAllObjects c = .ok (universeOf c cat) ∧
    ∀ o : Obj, (universeOf c cat).count o =
      (cat.map fun arl =>
        ((arl.resources.filter fun a => a.kind != "Event").map
          fun a =>
            ((getObjectsForAResource c arl.groupVersion a.name).1.count o)).sum).sum := by
  constructor
  · simp [getAllObjects, h]
  · intro o
    unfold universeOf
    simp only [concatMap_count]

/-- Witness for C8: over `cluC8`, the doubly-listed ConfigMap `xC8`
appears with multiplicity 2 in the universe, matching the per-slot
counts. -/
theorem c8_universe_concat_witness :
    getAllObjects cluC8 = .ok (universeOf cluC8 catC8) ∧
    (universeOf cluC8 catC8).count xC8 =
      (catC8.map fun arl =>
        ((arl.resources.filter fun a => a.kind != "Event").map
          fun a =>
            ((getObjectsForAResource cluC8 arl.groupVersion a.name).1.count
              xC8)).sum).sum :=
  ⟨(c8_universe_concat cluC8 catC8 (by decide)).1,
   (c8_universe_concat cluC8 catC8 (by decide)).2 xC8⟩

/-- C10: along a completed pass 1 the namespace closure set holds no
empty string, and consequently an object with the empty namespace is in
the final children set (after the pass-2 namespace closure) only when
one of its own tracking signals fired — a cluster-scoped object is
never added as a child by the closure pass alone. -/
theorem c10_no_empty_namespace
    (resolve : GraphState → Obj → RRes × GraphState) (a p : String)
    (n : NodeId) (objs : List Obj) (g g1 : GraphState) (ch : List Obj)
    (nss : List String)
    (h1 : pass1 resolve a p n g objs [] [] = (g1, ch, nss, none)) :
    (∀ s, s ∈ nss → s ≠ "") ∧
    (∀ x, x ∈ pass2 nss objs ch → x.ns = "" →
      trackingAnnot a x = true ∨ instanceLabel a x = true) := by
  obtain ⟨hc, hn⟩ := pass1_none_mem resolve a p n objs g [] [] g1 ch nss h1
  constructor
  · intro s hs
    rcases (hn s).1 hs with h | ⟨x, hx, hsig, hxs, hne⟩
    · cases h
    · exact hne
  · intro x hx hns
    rcases (pass2_mem nss objs ch x).1 hx with hx1 | ⟨hx1, hx2⟩
    · rcases (hc x).1 hx1 with h | ⟨hxo, hsig⟩
      · cases h
      · rcases hsig with h | h
        · exact Or.inl h
        · exact Or.inr h
    · exfalso
      rcases (hn x.ns).1 hx2 with h | ⟨m, hm, hsig, hms, hne⟩
      · cases h
      · exact hne hns

/-- Witness for C10: in the pass-1 run `p1C10` over `[mW1]`, the
namespace set contains `ns1`, which is non-empty. -/
theorem c10_no_empty_namespace_witness :
    "ns1" ∈ p1C10.2.2.1 ∧ ("ns1" : String) ≠ "" :=
  ⟨by decide,
   (c10_no_empty_namespace (Unstructured 1 cluC10) "app1" "p"
     (nodeIdOf appC1) [mW1] emptyG p1C10.1 p1C10.2.1 p1C10.2.2.1
     (by decide)).1 "ns1" (by decide)⟩
